import Mathlib

/-!
# Verification of the pixel-sprite-generator repository

Shallow embedding of the two source revisions:
* `src/pixel-sprite-generator-v0.0.1.js` (v0.0.1)
* `src/example/resize.js` (contains v0.0.2 of the generator)

The sprite template data (`this.data`, a row-major JS array indexed by
`y * width + x`) is modelled as a total function `Nat → Nat → Int`; the
JS array writes `data[y*width+x] = v` become pointwise functional updates
(every write performed by the program stays inside the row, so the
row-major address map is injective on the cells actually touched).
Doubly nested `for (y …) for (x …)` loops become left folds over the
row-major coordinate list `coordList`.  `Math.random()` is modelled as an
injected stream `rnd : Nat → ℚ` of draws consumed in program order.
-/

namespace PSG

/-- Sprite cell data, `this.data` viewed through `getData`/`setData`
(`resize.js` lines 215-235): a total map from `(x, y)` to the stored
integer code. -/
abbrev Grid := Nat → Nat → Int

/-- `Sprite.prototype.setData` (resize.js line 233): write `value` at `(x, y)`. -/
def setData (g : Grid) (x y : Nat) (v : Int) : Grid :=
  fun a b => if a = x ∧ b = y then v else g a b

/-- Row-major traversal order of the nested loops `for (y = 0; y < h; y++)
for (x = 0; x < w; x++)`: the list of visited `(x, y)` pairs. -/
def coordList (w h : Nat) : List (Nat × Nat) :=
  (List.range h).flatMap (fun y => (List.range w).map (fun x => (x, y)))

/-- The `Mask` class (v0.0.1 lines 36-42, resize.js lines 88-94): a plain
record of the constructor arguments. -/
structure Mask where
  width : Nat
  height : Nat
  data : List Int
  mirrorX : Bool
  mirrorY : Bool

/-- The `Mask` constructor body (v0.0.1 lines 36-42 = resize.js lines 88-94).
It stores every argument verbatim; `mirrorX`/`mirrorY` default to `true`
when the caller left them `undefined` (modelled by `Option.getD`).
The constructor contains no validation of any kind: no length check
against `width*height`, no domain check on the cell values, and no
error path. -/
def Mask.make (data : List Int) (width height : Nat)
    (mirrorX mirrorY : Option Bool) : Mask :=
  { width := width, height := height, data := data,
    mirrorX := mirrorX.getD true, mirrorY := mirrorY.getD true }

namespace Sprite

/-- `Sprite.prototype.initData` (resize.js lines 243-252): set every cell of
the `width × height` rectangle to `-1` (completely solid). -/
def initData (w h : Nat) (g : Grid) : Grid :=
  (coordList w h).foldl (fun g p => setData g p.1 p.2 (-1)) g

/-- `Sprite.prototype.applyMask` (resize.js lines 297-307): copy
`mask.data[y*w + x]` into the top-left `mask.width × mask.height`
sub-rectangle.  Out-of-range list reads (impossible for a well-formed
mask) default to `0`. -/
def applyMask (m : Mask) (g : Grid) : Grid :=
  (coordList m.width m.height).foldl
    (fun g p => setData g p.1 p.2 (m.data.getD (p.2 * m.width + p.1) 0)) g

/-- The per-cell resolution of `generateRandomSample` (resize.js lines
321-343) applied to one stored value `v` with one random draw `r`:
`1 ↦ 1 * Math.round(r)`, `2 ↦ if r > 0.5 then 1 else -1`, anything else
passes through (`Math.round` is `round`, i.e. floor of `x + 1/2`, on both
sides). -/
def sampleCellVal (v : Int) (r : ℚ) : Int :=
  if v = 1 then v * round r
  else if v = 2 then (if r > 1/2 then 1 else -1)
  else v

/-- One iteration of the `generateRandomSample` loop body: state is the
grid plus the index of the next unconsumed random draw (a draw is consumed
exactly when the cell holds `1` or `2`, matching the two `Math.random()`
call sites). -/
def sampleStep (rnd : Nat → ℚ) (s : Grid × Nat) (p : Nat × Nat) : Grid × Nat :=
  let val := s.1 p.1 p.2
  if val = 1 then (setData s.1 p.1 p.2 (val * round (rnd s.2)), s.2 + 1)
  else if val = 2 then
    (setData s.1 p.1 p.2 (if rnd s.2 > 1/2 then 1 else -1), s.2 + 1)
  else (setData s.1 p.1 p.2 val, s.2)

/-- `Sprite.prototype.generateRandomSample` (resize.js lines 321-343,
identical in v0.0.1 lines 235-257). -/
def generateRandomSample (w h : Nat) (rnd : Nat → ℚ) (g : Grid) : Grid :=
  ((coordList w h).foldl (sampleStep rnd) (g, 0)).1

/-- `Sprite.prototype.mirrorX` (resize.js lines 260-269): for every row and
every `x < floor(width/2)`, copy cell `(x, y)` onto `(width-1-x, y)`. -/
def mirrorX (w h : Nat) (g : Grid) : Grid :=
  (coordList (w / 2) h).foldl
    (fun g p => setData g (w - p.1 - 1) p.2 (g p.1 p.2)) g

/-- `Sprite.prototype.mirrorY` (resize.js lines 277-286): for every column
and every `y < floor(height/2)`, copy cell `(x, y)` onto `(x, height-1-y)`. -/
def mirrorY (w h : Nat) (g : Grid) : Grid :=
  (coordList w (h / 2)).foldl
    (fun g p => setData g p.1 (h - p.2 - 1) (g p.1 p.2)) g

/-- One conditional neighbour write of the `generateEdges` loop body:
`if (guard && this.getData(a, b) === 0) { this.setData(a, b, -1); }`. -/
def mark (g : Grid) (cond : Prop) [Decidable cond] (a b : Nat) : Grid :=
  if cond ∧ g a b = 0 then setData g a b (-1) else g

/-- One iteration of the `generateEdges` loop body (resize.js lines
357-372): if the current cell is positive, each of its four orthogonal
neighbours that is in bounds and currently `0` is rewritten to `-1`, in
source order up / down / left / right.  The JS guard `y - 1 >= 0` is
`1 ≤ p.2` (and similarly for `x - 1 >= 0`); the guards `y + 1 < this.height`
and `x + 1 < this.width` are `p.2 + 1 < h` and `p.1 + 1 < w`. -/
def edgeStep (w h : Nat) (g : Grid) (p : Nat × Nat) : Grid :=
  if g p.1 p.2 > 0 then
    mark (mark (mark (mark g (1 ≤ p.2) p.1 (p.2 - 1))
      (p.2 + 1 < h) p.1 (p.2 + 1))
      (1 ≤ p.1) (p.1 - 1) p.2)
      (p.1 + 1 < w) (p.1 + 1) p.2
  else g

/-- `Sprite.prototype.generateEdges` (resize.js lines 352-375, identical in
v0.0.1 lines 266-289). -/
def generateEdges (w h : Nat) (g : Grid) : Grid :=
  (coordList w h).foldl (edgeStep w h) g

/-- `this.width = mask.width * (mask.mirrorX ? 2 : 1)` (resize.js line 114). -/
def gridWidth (m : Mask) : Nat := m.width * (if m.mirrorX then 2 else 1)

/-- `this.height = mask.height * (mask.mirrorY ? 2 : 1)` (resize.js line 115). -/
def gridHeight (m : Mask) : Nat := m.height * (if m.mirrorY then 2 else 1)

/-- The grid after `initData`, `applyMask` and `generateRandomSample` in
`Sprite.prototype.init` (resize.js lines 158-161, identical in v0.0.1).
The fresh JS array `new Array(w*h)` before `initData` is an arbitrary
base, taken as the all-`0` map; `initData` overwrites every in-bounds
cell. -/
def sampledGrid (m : Mask) (rnd : Nat → ℚ) : Grid :=
  generateRandomSample (gridWidth m) (gridHeight m) rnd
    (applyMask m (initData (gridWidth m) (gridHeight m) (fun _ _ => 0)))

/-- The grid after the two mirror conditionals of v0.0.2 `init`
(resize.js lines 163-169): `if (mask.mirrorX) this.mirrorX();
if (mask.mirrorY) this.mirrorY();`. -/
def mirroredGrid (m : Mask) (rnd : Nat → ℚ) : Grid :=
  if m.mirrorY then
    mirrorY (gridWidth m) (gridHeight m)
      (if m.mirrorX then
        mirrorX (gridWidth m) (gridHeight m) (sampledGrid m rnd)
       else sampledGrid m rnd)
  else
    (if m.mirrorX then
      mirrorX (gridWidth m) (gridHeight m) (sampledGrid m rnd)
     else sampledGrid m rnd)

/-- The grid-producing part of `Sprite.prototype.init` in v0.0.2
(resize.js lines 155-173): the phases above followed by `generateEdges`.
(`initCanvas`, `initContext` and `renderPixelData` do not touch
`this.data`.) -/
def finishedGrid (m : Mask) (rnd : Nat → ℚ) : Grid :=
  generateEdges (gridWidth m) (gridHeight m) (mirroredGrid m rnd)

/-- The mirror phase of v0.0.1 `init` (lines 77-83).  Identical to v0.0.2
except line 82: inside `if (this.mask.mirrorY)` the code calls
`this.mirrorX()` again instead of `this.mirrorY()`. -/
def mirroredGridV001 (m : Mask) (rnd : Nat → ℚ) : Grid :=
  if m.mirrorY then
    mirrorX (gridWidth m) (gridHeight m)
      (if m.mirrorX then
        mirrorX (gridWidth m) (gridHeight m) (sampledGrid m rnd)
       else sampledGrid m rnd)
  else
    (if m.mirrorX then
      mirrorX (gridWidth m) (gridHeight m) (sampledGrid m rnd)
     else sampledGrid m rnd)

/-- The grid-producing part of `Sprite.prototype.init` in v0.0.1
(lines 69-87), with the erroneous re-invocation of `mirrorX` at line 82. -/
def finishedGridV001 (m : Mask) (rnd : Nat → ℚ) : Grid :=
  generateEdges (gridWidth m) (gridHeight m) (mirroredGridV001 m rnd)

end Sprite

/-! ## Analysis-side definitions (used to state the loop characterizations) -/

/-- Whether a cell consumes a random draw during `generateRandomSample`:
exactly the cells holding code `1` or `2`. -/
def isStoch (g : Grid) (q : Nat × Nat) : Bool :=
  decide (g q.1 q.2 = 1) || decide (g q.1 q.2 = 2)

/-- Number of draw-consuming cells strictly before `p` in the traversal
order `l`, relative to the pre-sampling grid `g`. -/
def stochBefore (g : Grid) (l : List (Nat × Nat)) (p : Nat × Nat) : Nat :=
  (l.takeWhile (fun q => decide (q ≠ p))).countP (isStoch g)

/-- The set of cells conditionally written by one `generateEdges` iteration
at `p`: the four guarded orthogonal neighbours of `p`. -/
def stepWrites (w h : Nat) (p : Nat × Nat) (x y : Nat) : Prop :=
  (x = p.1 ∧ y = p.2 - 1 ∧ 1 ≤ p.2) ∨
  (x = p.1 ∧ y = p.2 + 1 ∧ p.2 + 1 < h) ∨
  (x = p.1 - 1 ∧ y = p.2 ∧ 1 ≤ p.1) ∨
  (x = p.1 + 1 ∧ y = p.2 ∧ p.1 + 1 < w)

instance stepWritesDecidable (w h : Nat) (p : Nat × Nat) (x y : Nat) :
    Decidable (stepWrites w h p x y) := by
  unfold stepWrites
  exact inferInstance

/-- Body-neighbour test relative to a set `D` of already-visited cells:
some neighbour of `(x, y)` is visited, positive, and its write towards
`(x, y)` passes exactly the bounds guards the code applies. -/
def doneNbr (w h : Nat) (D : Nat × Nat → Bool) (g : Grid) (x y : Nat) : Bool :=
  (D (x, y - 1) && decide (1 ≤ y) && decide (y < h) && decide (g x (y - 1) > 0)) ||
  (D (x, y + 1) && decide (g x (y + 1) > 0)) ||
  (D (x - 1, y) && decide (1 ≤ x) && decide (x < w) && decide (g (x - 1) y > 0)) ||
  (D (x + 1, y) && decide (g (x + 1) y > 0))

/-- Invariant of the `generateEdges` scan: the current grid agrees with the
original except that cells that were `0` and have a visited positive
neighbour (with matching write guards) have become `-1`. -/
def EdgeApprox (w h : Nat) (D : Nat × Nat → Bool) (orig cur : Grid) : Prop :=
  ∀ x y, cur x y =
    if orig x y = 0 ∧ doneNbr w h D orig x y = true then -1 else orig x y

/-- Body-neighbour test of the finished formula: some in-bounds orthogonal
neighbour of `(x, y)` holds a positive (body) value. -/
def bodyNbr (w h : Nat) (g : Grid) (x y : Nat) : Bool :=
  (decide (1 ≤ y) && decide (g x (y - 1) > 0)) ||
  (decide (y + 1 < h) && decide (g x (y + 1) > 0)) ||
  (decide (1 ≤ x) && decide (g (x - 1) y > 0)) ||
  (decide (x + 1 < w) && decide (g (x + 1) y > 0))


/-! ## Rendering: v0.0.2 `Sprite` options, `hslToRgb` and `renderPixelData`

`Math.sin` and `Math.PI` are transcendental; the embedding takes them as
parameters `sinf : ℚ → ℚ` and `piQ : ℚ` — no claim about the renderer
depends on their values.  The pixel buffer is the map from byte index to
the value `channel * 255` stored there; `createImageData` zero-initializes
it.  The buffer holds the computed value `channel * 255` of each store;
the `Uint8ClampedArray` quantization that the `ImageData` store itself
performs (clamp to [0, 255] and round) is not modelled, so a claim may
only draw an observable conclusion at stored values that are fixed
points of that quantization — integers in [0, 255], such as the 0, 102,
204 and 255 the claims mention.  Likewise a concrete instantiation of
`sinf` only witnesses a real execution if it agrees with `Math.sin` at
every argument actually used (or its value there is multiplied by 0). -/

/-- An `{r, g, b}` record of channel values (floats in the source). -/
structure RGB where
  r : ℚ
  g : ℚ
  b : ℚ

/-- `Sprite.prototype.hslToRgb` (resize.js lines 475-497).  `i` is
`Math.floor(h * 6)`; the `switch (i % 6)` uses JavaScript's `%`, the
truncated remainder `Int.tmod`; when no case matches (possible only for
`h < 0`, where `tmod` is negative) the passed-in `result` is returned
with its fields unchanged.  The source assigns only the `r`, `g`, `b`
fields of `result`; its alpha field is untouched. -/
def hslToRgb (h s l : ℚ) (result : RGB) : RGB :=
  let i : Int := ⌊h * 6⌋
  let f : ℚ := h * 6 - (i : ℚ)
  let p : ℚ := l * (1 - s)
  let q : ℚ := l * (1 - f * s)
  let t : ℚ := l * (1 - (1 - f) * s)
  let j := Int.tmod i 6
  if j = 0 then ⟨l, t, p⟩
  else if j = 1 then ⟨q, l, p⟩
  else if j = 2 then ⟨p, l, t⟩
  else if j = 3 then ⟨p, q, l⟩
  else if j = 4 then ⟨t, p, l⟩
  else if j = 5 then ⟨l, p, q⟩
  else result

/-- The sextant table exactly as the specification states it, for
comparison with `hslToRgb`: `(r, g, b)` chosen by `⌊h*6⌋ mod 6`
(mathematical, always non-negative modulus `Int.emod`) among
`(l,t,p), (q,l,p), (p,l,t), (p,q,l), (t,p,l), (l,p,q)`. -/
def hslSextantSpec (h s l : ℚ) : RGB :=
  let i : Int := ⌊h * 6⌋
  let f : ℚ := h * 6 - (i : ℚ)
  let p : ℚ := l * (1 - s)
  let q : ℚ := l * (1 - f * s)
  let t : ℚ := l * (1 - (1 - f) * s)
  let j := Int.emod i 6
  if j = 0 then ⟨l, t, p⟩
  else if j = 1 then ⟨q, l, p⟩
  else if j = 2 then ⟨p, l, t⟩
  else if j = 3 then ⟨p, q, l⟩
  else if j = 4 then ⟨t, p, l⟩
  else ⟨l, p, q⟩

/-- The caller-visible options object of the v0.0.2 `Sprite` constructor:
each of the five documented fields either holds a value or is `undefined`
(`none`). -/
structure SpriteOptions where
  colored : Option Bool
  edgeBrightness : Option ℚ
  colorVariations : Option ℚ
  brightnessNoise : Option ℚ
  saturation : Option ℚ

/-- The option-merging loop of the v0.0.2 `Sprite` constructor
(resize.js lines 119-143).  `this.options = options || {}` aliases the
caller's object, and the loop assigns `this.options[prop] = val` for
every one of the five fields, `val` being the caller's value when defined
and the default otherwise.  This function is the post-constructor state
of the caller's options object.  Defaults: `colored = true`,
`edgeBrightness = 0.3`, `colorVariations = 0.2`, `brightnessNoise = 0.3`,
`saturation = 0.5`. -/
def mergeOptions (o : SpriteOptions) : SpriteOptions :=
  { colored := some (o.colored.getD true),
    edgeBrightness := some (o.edgeBrightness.getD (3/10)),
    colorVariations := some (o.colorVariations.getD (2/10)),
    brightnessNoise := some (o.brightnessNoise.getD (3/10)),
    saturation := some (o.saturation.getD (5/10)) }

/-- Fully-resolved numeric render options, as `renderPixelData` reads
them through `this.options` (after the constructor every field is
defined). -/
structure RenderOpts where
  colored : Bool
  edgeBrightness : ℚ
  colorVariations : ℚ
  brightnessNoise : ℚ
  saturation : ℚ

/-- The clamped per-render saturation (resize.js line 388):
`Math.max(Math.min(Math.random() * saturation, 1), 0)`. -/
def renderSaturation (r s : ℚ) : ℚ := max (min (r * s) 1) 0

/-- The non-uniform draw deciding hue changes (resize.js lines 402-404):
`Math.abs(((r1*2 - 1) + (r2*2 - 1) + (r3*2 - 1)) / 3)`. -/
def isNewColorVal (r1 r2 r3 : ℚ) : ℚ :=
  |((r1 * 2 - 1) + (r2 * 2 - 1) + (r3 * 2 - 1)) / 3|

/-- Pixel brightness (resize.js lines 427-428):
`Math.sin((u / ulen) * Math.PI) * (1 - brightnessNoise)
 + Math.random() * brightnessNoise`. -/
def brightnessVal (sinf : ℚ → ℚ) (piQ : ℚ) (u ulen : Nat) (bn r : ℚ) : ℚ :=
  sinf (((u : ℚ) / (ulen : ℚ)) * piQ) * (1 - bn) + r * bn

/-- Byte index of the first channel of the pixel visited at `(u, v)`
(resize.js lines 413-418): `(u*vlen + v) * 4` under a vertical gradient,
`(v*ulen + u) * 4` under a horizontal one. -/
def pixIndex (isVert : Bool) (ulen vlen u v : Nat) : Nat :=
  if isVert then (u * vlen + v) * 4 else (v * ulen + u) * 4

/-- Grid value read for the pixel visited at `(u, v)` (resize.js lines
413-417): `getData(v, u)` under a vertical gradient, `getData(u, v)`
under a horizontal one. -/
def pixVal (isVert : Bool) (g : Grid) (u v : Nat) : Int :=
  if isVert then g v u else g u v

/-- Write the four channel bytes of one pixel (resize.js lines 454-457):
`pixels.data[index + k] = channel * 255` for k = 0, 1, 2, 3. -/
def writeRGBA (buf : Nat → ℚ) (index : Nat) (r g b a : ℚ) : Nat → ℚ :=
  fun j =>
    if j = index then r * 255
    else if j = index + 1 then g * 255
    else if j = index + 2 then b * 255
    else if j = index + 3 then a * 255
    else buf j

/-- The body of the inner `v` loop of `renderPixelData` (resize.js lines
411-458), acting on the state `(buffer, draw counter)`.  `rgba` starts as
`{1,1,1,1}`; a brightness draw is consumed exactly when the cell is not
empty and `colored` is set; `hslToRgb` overwrites only `r`, `g`, `b`;
a border cell's channels are multiplied by `edgeBrightness`; an empty
cell only zeroes the alpha. -/
def innerStep (o : RenderOpts) (g : Grid) (rnd : Nat → ℚ) (sinf : ℚ → ℚ) (piQ : ℚ)
    (isVert : Bool) (ulen vlen u : Nat) (hue sat : ℚ)
    (s : (Nat → ℚ) × Nat) (v : Nat) : (Nat → ℚ) × Nat :=
  if pixVal isVert g u v ≠ 0 then
    if o.colored then
      (writeRGBA s.1 (pixIndex isVert ulen vlen u v)
        ((if pixVal isVert g u v = -1 then
            (hslToRgb hue sat
              (brightnessVal sinf piQ u ulen o.brightnessNoise (rnd s.2)) ⟨1, 1, 1⟩).r
              * o.edgeBrightness
          else (hslToRgb hue sat
              (brightnessVal sinf piQ u ulen o.brightnessNoise (rnd s.2)) ⟨1, 1, 1⟩).r))
        ((if pixVal isVert g u v = -1 then
            (hslToRgb hue sat
              (brightnessVal sinf piQ u ulen o.brightnessNoise (rnd s.2)) ⟨1, 1, 1⟩).g
              * o.edgeBrightness
          else (hslToRgb hue sat
              (brightnessVal sinf piQ u ulen o.brightnessNoise (rnd s.2)) ⟨1, 1, 1⟩).g))
        ((if pixVal isVert g u v = -1 then
            (hslToRgb hue sat
              (brightnessVal sinf piQ u ulen o.brightnessNoise (rnd s.2)) ⟨1, 1, 1⟩).b
              * o.edgeBrightness
          else (hslToRgb hue sat
              (brightnessVal sinf piQ u ulen o.brightnessNoise (rnd s.2)) ⟨1, 1, 1⟩).b))
        1, s.2 + 1)
    else
      (writeRGBA s.1 (pixIndex isVert ulen vlen u v)
        (if pixVal isVert g u v = -1 then 0 else 1)
        (if pixVal isVert g u v = -1 then 0 else 1)
        (if pixVal isVert g u v = -1 then 0 else 1)
        1, s.2)
  else
    (writeRGBA s.1 (pixIndex isVert ulen vlen u v) 1 1 1 0, s.2)

/-- The body of the outer `u` loop (resize.js lines 400-459), acting on
`(buffer, hue, draw counter)`: three draws for `isNewColor`, a
conditional hue redraw when `isNewColor > 1 - colorVariations`, then the
inner loop over `v`. -/
def outerStep (o : RenderOpts) (g : Grid) (rnd : Nat → ℚ) (sinf : ℚ → ℚ) (piQ : ℚ)
    (isVert : Bool) (ulen vlen : Nat) (sat : ℚ)
    (s : (Nat → ℚ) × ℚ × Nat) (u : Nat) : (Nat → ℚ) × ℚ × Nat :=
  ((((List.range vlen).foldl
      (innerStep o g rnd sinf piQ isVert ulen vlen u
        (if isNewColorVal (rnd s.2.2) (rnd (s.2.2 + 1)) (rnd (s.2.2 + 2))
            > 1 - o.colorVariations
         then rnd (s.2.2 + 3) else s.2.1) sat)
      (s.1,
        if isNewColorVal (rnd s.2.2) (rnd (s.2.2 + 1)) (rnd (s.2.2 + 2))
            > 1 - o.colorVariations
        then s.2.2 + 4 else s.2.2 + 3)).1),
    (if isNewColorVal (rnd s.2.2) (rnd (s.2.2 + 1)) (rnd (s.2.2 + 2))
        > 1 - o.colorVariations
     then rnd (s.2.2 + 3) else s.2.1),
    (((List.range vlen).foldl
      (innerStep o g rnd sinf piQ isVert ulen vlen u
        (if isNewColorVal (rnd s.2.2) (rnd (s.2.2 + 1)) (rnd (s.2.2 + 2))
            > 1 - o.colorVariations
         then rnd (s.2.2 + 3) else s.2.1) sat)
      (s.1,
        if isNewColorVal (rnd s.2.2) (rnd (s.2.2 + 1)) (rnd (s.2.2 + 2))
            > 1 - o.colorVariations
        then s.2.2 + 4 else s.2.2 + 3)).2))

/-- `Sprite.prototype.renderPixelData` (resize.js lines 386-462) as a
function from the resolved grid to the pixel buffer.  Draw order matches
the source: draw 0 decides the gradient orientation
(`Math.random() > 0.5`), draw 1 the clamped saturation, draw 2 the
initial hue; the outer loop then consumes draws through its counter,
starting at 3. -/
def renderPixelData (w h : Nat) (g : Grid) (o : RenderOpts) (rnd : Nat → ℚ)
    (sinf : ℚ → ℚ) (piQ : ℚ) : Nat → ℚ :=
  ((List.range (if rnd 0 > 1/2 then h else w)).foldl
    (outerStep o g rnd sinf piQ (decide (rnd 0 > 1/2))
      (if rnd 0 > 1/2 then h else w) (if rnd 0 > 1/2 then w else h)
      (renderSaturation (rnd 1) o.saturation))
    (fun _ => 0, rnd 2, 3)).1

/-! ## Basic lemmas about the embedding primitives -/

theorem setData_apply (g : Grid) (x y : Nat) (v : Int) (a b : Nat) :
    setData g x y v a b = if a = x ∧ b = y then v else g a b := rfl

theorem setData_self (g : Grid) (x y : Nat) : setData g x y (g x y) = g := by
  funext a b
  by_cases h : a = x ∧ b = y
  · simp [setData, h, h.1, h.2]
  · simp [setData, h]

theorem setData_ne (g : Grid) (x y : Nat) (v : Int) (a b : Nat)
    (h : ¬(a = x ∧ b = y)) : setData g x y v a b = g a b := by
  simp [setData, h]

theorem mem_coordList {w h : Nat} {p : Nat × Nat} :
    p ∈ coordList w h ↔ p.1 < w ∧ p.2 < h := by
  cases p with
  | mk x y =>
    simp only [coordList, List.mem_flatMap, List.mem_map, List.mem_range]
    constructor
    · rintro ⟨b, hb, a, ha, hab⟩
      cases hab
      exact ⟨ha, hb⟩
    · rintro ⟨hx, hy⟩
      exact ⟨y, hy, x, hx, rfl⟩

theorem coordList_nodup (w h : Nat) : (coordList w h).Nodup := by
  refine List.nodup_flatMap.2 ⟨?_, ?_⟩
  · intro y _
    exact (List.nodup_range w).map (fun a b hab => congrArg Prod.fst hab)
  · refine List.Pairwise.imp ?_ (List.nodup_range h)
    intro y₁ y₂ hne q hq₁ hq₂
    simp only [List.mem_map, List.mem_range] at hq₁ hq₂
    obtain ⟨a₁, -, rfl⟩ := hq₁
    obtain ⟨a₂, -, h₂⟩ := hq₂
    exact hne (congrArg Prod.snd h₂).symm

/-! ## Characterization of the simple write loops -/

/-- A row-major loop that writes a value depending only on the visited
coordinate: afterwards every visited cell holds its value, everything else
is untouched. -/
theorem foldl_setConst_char (v : Nat × Nat → Int) :
    ∀ (l : List (Nat × Nat)) (cur : Grid) (x y : Nat),
      (l.foldl (fun g p => setData g p.1 p.2 (v p)) cur) x y =
        if (x, y) ∈ l then v (x, y) else cur x y := by
  intro l
  induction l with
  | nil => intro cur x y; simp
  | cons p t ih =>
    intro cur x y
    rw [List.foldl_cons, ih]
    by_cases hmem : (x, y) ∈ t
    · rw [if_pos hmem, if_pos (List.mem_cons_of_mem p hmem)]
    · rw [if_neg hmem]
      by_cases hp : (x, y) = p
      · subst hp
        rw [if_pos (List.mem_cons_self _ _)]
        simp [setData]
      · rw [if_neg (by simp [List.mem_cons, hp, hmem])]
        exact setData_ne _ _ _ _ _ _
          (fun hc => hp (Prod.ext_iff.mpr ⟨hc.1, hc.2⟩))

theorem initData_apply (w h : Nat) (g : Grid) (x y : Nat) :
    Sprite.initData w h g x y = if x < w ∧ y < h then -1 else g x y := by
  have h0 := foldl_setConst_char (fun _ => (-1 : Int)) (coordList w h) g x y
  simp only [mem_coordList] at h0
  exact h0

theorem applyMask_apply (m : Mask) (g : Grid) (x y : Nat) :
    Sprite.applyMask m g x y =
      if x < m.width ∧ y < m.height then m.data.getD (y * m.width + x) 0
      else g x y := by
  have h0 := foldl_setConst_char
    (fun p => m.data.getD (p.2 * m.width + p.1) 0) (coordList m.width m.height) g x y
  simp only [mem_coordList] at h0
  exact h0

/-- A row-major loop that copies the value read at the visited coordinate
onto a target cell, where targets are never read (so every read returns
the original value) and `inv` recovers the source from the target. -/
theorem foldl_copy_char (tgt inv : Nat × Nat → Nat × Nat) :
    ∀ (l : List (Nat × Nat)) (cur g₀ : Grid),
      (∀ p ∈ l, ∀ q ∈ l, tgt p ≠ q) →
      (∀ p ∈ l, inv (tgt p) = p) →
      (∀ p ∈ l, cur p.1 p.2 = g₀ p.1 p.2) →
      ∀ x y,
        (l.foldl (fun g p => setData g (tgt p).1 (tgt p).2 (g p.1 p.2)) cur) x y =
          if ∃ p ∈ l, tgt p = (x, y) then g₀ (inv (x, y)).1 (inv (x, y)).2
          else cur x y := by
  intro l
  induction l with
  | nil => intro cur g₀ _ _ _ x y; simp
  | cons p t ih =>
    intro cur g₀ hTR hInv hRead x y
    rw [List.foldl_cons]
    have hcurp : cur p.1 p.2 = g₀ p.1 p.2 := hRead p (List.mem_cons_self p t)
    have hRead' : ∀ q ∈ t,
        (setData cur (tgt p).1 (tgt p).2 (cur p.1 p.2)) q.1 q.2 = g₀ q.1 q.2 := by
      intro q hq
      have hne : tgt p ≠ q :=
        hTR p (List.mem_cons_self p t) q (List.mem_cons_of_mem p hq)
      rw [setData_ne]
      · exact hRead q (List.mem_cons_of_mem p hq)
      · intro hc
        exact hne (Prod.ext_iff.mpr ⟨hc.1, hc.2⟩).symm
    rw [ih _ g₀
      (fun a ha b hb => hTR a (List.mem_cons_of_mem p ha) b (List.mem_cons_of_mem p hb))
      (fun a ha => hInv a (List.mem_cons_of_mem p ha)) hRead' x y]
    by_cases hex : ∃ q ∈ t, tgt q = (x, y)
    · rw [if_pos hex]
      obtain ⟨q, hq, hqt⟩ := hex
      rw [if_pos ⟨q, List.mem_cons_of_mem p hq, hqt⟩]
    · rw [if_neg hex]
      by_cases hp : tgt p = (x, y)
      · rw [if_pos ⟨p, List.mem_cons_self p t, hp⟩]
        have hinvp : inv (x, y) = p := by
          rw [← hp]; exact hInv p (List.mem_cons_self p t)
        have hx : x = (tgt p).1 := (congrArg Prod.fst hp).symm
        have hy : y = (tgt p).2 := (congrArg Prod.snd hp).symm
        rw [hinvp, ← hcurp, hx, hy]
        simp [setData]
      · rw [if_neg (by
          rintro ⟨q, hq, htq⟩
          rcases List.mem_cons.mp hq with rfl | hq'
          · exact hp htq
          · exact hex ⟨q, hq', htq⟩)]
        exact setData_ne _ _ _ _ _ _
          (fun hc => hp (Prod.ext_iff.mpr ⟨hc.1.symm, hc.2.symm⟩))

theorem mirrorX_apply (w h : Nat) (g : Grid) (x y : Nat) :
    Sprite.mirrorX w h g x y =
      if w - w / 2 ≤ x ∧ x < w ∧ y < h then g (w - 1 - x) y else g x y := by
  have htr : ∀ p ∈ coordList (w / 2) h, ∀ q ∈ coordList (w / 2) h,
      ((w - p.1 - 1, p.2) : Nat × Nat) ≠ q := by
    intro p hp q hq hc
    rw [mem_coordList] at hp hq
    have h1 : w - p.1 - 1 = q.1 := congrArg Prod.fst hc
    omega
  have hinv : ∀ p ∈ coordList (w / 2) h,
      ((fun q : Nat × Nat => (w - 1 - q.1, q.2)) ((w - p.1 - 1, p.2))) = p := by
    intro p hp
    rw [mem_coordList] at hp
    exact Prod.ext_iff.mpr ⟨by simp; omega, rfl⟩
  have harith : (∃ p ∈ coordList (w / 2) h, ((w - p.1 - 1, p.2) : Nat × Nat) = (x, y)) ↔
      (w - w / 2 ≤ x ∧ x < w ∧ y < h) := by
    constructor
    · rintro ⟨p, hp, heq⟩
      rw [mem_coordList] at hp
      have h1 : w - p.1 - 1 = x := congrArg Prod.fst heq
      have h2 : p.2 = y := congrArg Prod.snd heq
      omega
    · rintro ⟨h1, h2, h3⟩
      refine ⟨(w - 1 - x, y), mem_coordList.mpr ⟨by simp; omega, h3⟩, ?_⟩
      exact Prod.ext_iff.mpr ⟨by simp; omega, rfl⟩
  have h0 := foldl_copy_char (fun p => (w - p.1 - 1, p.2))
    (fun q => (w - 1 - q.1, q.2)) (coordList (w / 2) h) g g htr hinv
    (fun _ _ => rfl) x y
  simp only [harith] at h0
  exact h0

theorem mirrorY_apply (w h : Nat) (g : Grid) (x y : Nat) :
    Sprite.mirrorY w h g x y =
      if x < w ∧ h - h / 2 ≤ y ∧ y < h then g x (h - 1 - y) else g x y := by
  have htr : ∀ p ∈ coordList w (h / 2), ∀ q ∈ coordList w (h / 2),
      ((p.1, h - p.2 - 1) : Nat × Nat) ≠ q := by
    intro p hp q hq hc
    rw [mem_coordList] at hp hq
    have h1 : h - p.2 - 1 = q.2 := congrArg Prod.snd hc
    omega
  have hinv : ∀ p ∈ coordList w (h / 2),
      ((fun q : Nat × Nat => (q.1, h - 1 - q.2)) ((p.1, h - p.2 - 1))) = p := by
    intro p hp
    rw [mem_coordList] at hp
    exact Prod.ext_iff.mpr ⟨rfl, by simp; omega⟩
  have harith : (∃ p ∈ coordList w (h / 2), ((p.1, h - p.2 - 1) : Nat × Nat) = (x, y)) ↔
      (x < w ∧ h - h / 2 ≤ y ∧ y < h) := by
    constructor
    · rintro ⟨p, hp, heq⟩
      rw [mem_coordList] at hp
      have h1 : p.1 = x := congrArg Prod.fst heq
      have h2 : h - p.2 - 1 = y := congrArg Prod.snd heq
      omega
    · rintro ⟨h1, h2, h3⟩
      refine ⟨(x, h - 1 - y), mem_coordList.mpr ⟨h1, by simp; omega⟩, ?_⟩
      exact Prod.ext_iff.mpr ⟨rfl, by simp; omega⟩
  have h0 := foldl_copy_char (fun p => (p.1, h - p.2 - 1))
    (fun q => (q.1, h - 1 - q.2)) (coordList w (h / 2)) g g htr hinv
    (fun _ _ => rfl) x y
  simp only [harith] at h0
  exact h0

/-! ## Characterization of the stochastic sampling loop -/

theorem sampleStep_eq (rnd : Nat → ℚ) (g : Grid) (k : Nat) (p : Nat × Nat) :
    Sprite.sampleStep rnd (g, k) p =
      (setData g p.1 p.2 (Sprite.sampleCellVal (g p.1 p.2) (rnd k)),
        k + if isStoch g p then 1 else 0) := by
  unfold Sprite.sampleStep Sprite.sampleCellVal isStoch
  by_cases h1 : g p.1 p.2 = 1
  · simp [h1]
  · by_cases h2 : g p.1 p.2 = 2
    · simp [h1, h2]
    · simp [h1, h2]

theorem sample_foldl_untouched (rnd : Nat → ℚ) :
    ∀ (l : List (Nat × Nat)) (g : Grid) (k : Nat) (x y : Nat), (x, y) ∉ l →
      ((l.foldl (Sprite.sampleStep rnd) (g, k)).1) x y = g x y := by
  intro l
  induction l with
  | nil => intro g k x y _; rfl
  | cons p t ih =>
    intro g k x y hmem
    rw [List.foldl_cons, sampleStep_eq, ih _ _ x y (fun hc => hmem (List.mem_cons_of_mem p hc))]
    refine setData_ne _ _ _ _ _ _ ?_
    intro hc
    have hxy : (x, y) = p := Prod.ext_iff.mpr ⟨hc.1, hc.2⟩
    exact hmem (by rw [hxy]; exact List.mem_cons_self p t)

theorem sample_foldl_char (rnd : Nat → ℚ) :
    ∀ (l : List (Nat × Nat)), l.Nodup → ∀ (g : Grid) (k : Nat) (p : Nat × Nat), p ∈ l →
      ((l.foldl (Sprite.sampleStep rnd) (g, k)).1) p.1 p.2 =
        Sprite.sampleCellVal (g p.1 p.2) (rnd (k + stochBefore g l p)) := by
  intro l
  induction l with
  | nil => intro _ g k p hp; cases hp
  | cons q t ih =>
    intro hnd g k p hp
    have hqt : q ∉ t := (List.nodup_cons.mp hnd).1
    have hndt : t.Nodup := (List.nodup_cons.mp hnd).2
    rw [List.foldl_cons, sampleStep_eq]
    by_cases hpq : p = q
    · subst hpq
      rw [sample_foldl_untouched rnd t _ _ p.1 p.2 (by simpa using hqt)]
      rw [setData_apply, if_pos ⟨rfl, rfl⟩]
      have hz : stochBefore g (p :: t) p = 0 := by
        unfold stochBefore
        rw [List.takeWhile_cons]
        simp
      rw [hz, Nat.add_zero]
    · have hpt : p ∈ t := by
        rcases List.mem_cons.mp hp with h | h
        · exact absurd h hpq
        · exact h
      rw [ih hndt _ _ p hpt]
      have hne : ¬(p.1 = q.1 ∧ p.2 = q.2) :=
        fun hc => hpq (Prod.ext_iff.mpr ⟨hc.1, hc.2⟩)
      rw [setData_ne _ _ _ _ _ _ hne]
      have hsb : stochBefore (setData g q.1 q.2 (Sprite.sampleCellVal (g q.1 q.2) (rnd k))) t p
          = stochBefore g t p := by
        unfold stochBefore
        refine List.countP_congr ?_
        intro r hr
        have hrt : r ∈ t := (List.takeWhile_sublist _).subset hr
        have hrq : r ≠ q := fun hc => hqt (hc ▸ hrt)
        have hrne : ¬(r.1 = q.1 ∧ r.2 = q.2) :=
          fun hc => hrq (Prod.ext_iff.mpr ⟨hc.1, hc.2⟩)
        unfold isStoch
        rw [setData_ne _ _ _ _ _ _ hrne]
      rw [hsb]
      have hqp : q ≠ p := fun hc => hpq hc.symm
      have hcount : stochBefore g (q :: t) p
          = (if isStoch g q then 1 else 0) + stochBefore g t p := by
        unfold stochBefore
        rw [List.takeWhile_cons]
        rw [if_pos (by simpa using hqp), List.countP_cons]
        by_cases hs : isStoch g q
        · simp [hs, Nat.add_comm]
        · simp [hs]
      rw [hcount]
      ring_nf

/-- Pointwise description of `generateRandomSample`: the in-bounds cell
`(x, y)` is resolved by `sampleCellVal` applied to its own pre-sampling
value and to the draw whose index is the number of draw-consuming cells
visited before it; out-of-bounds cells are untouched. -/
theorem generateRandomSample_apply (w h : Nat) (rnd : Nat → ℚ) (g : Grid) (x y : Nat) :
    Sprite.generateRandomSample w h rnd g x y =
      if x < w ∧ y < h then
        Sprite.sampleCellVal (g x y) (rnd (stochBefore g (coordList w h) (x, y)))
      else g x y := by
  unfold Sprite.generateRandomSample
  by_cases hin : x < w ∧ y < h
  · rw [if_pos hin]
    have hch := sample_foldl_char rnd (coordList w h) (coordList_nodup w h) g 0 (x, y)
      (mem_coordList.mpr hin)
    simpa using hch
  · rw [if_neg hin]
    exact sample_foldl_untouched rnd (coordList w h) g 0 x y
      (fun hc => hin (mem_coordList.mp hc))

/-! ## Facts about the per-cell sampling function -/

theorem sampleCellVal_one (r : ℚ) : Sprite.sampleCellVal 1 r = round r := by
  unfold Sprite.sampleCellVal
  rw [if_pos rfl, one_mul]

theorem sampleCellVal_two (r : ℚ) :
    Sprite.sampleCellVal 2 r = if r > 1/2 then 1 else -1 := by
  unfold Sprite.sampleCellVal
  norm_num

theorem round_eq_zero_of_lt_half (r : ℚ) (h0 : 0 ≤ r) (h1 : r < 1/2) : round r = 0 := by
  rw [round_eq]
  refine Int.floor_eq_iff.mpr ?_
  constructor <;> push_cast <;> linarith

theorem round_eq_one_of_half_le (r : ℚ) (h0 : 1/2 ≤ r) (h1 : r < 1) : round r = 1 := by
  rw [round_eq]
  refine Int.floor_eq_iff.mpr ?_
  constructor <;> push_cast <;> linarith

theorem sampleCellVal_passthrough (v : Int) (r : ℚ) (hv : v = -1 ∨ v = 0) :
    Sprite.sampleCellVal v r = v := by
  rcases hv with h | h <;> subst h <;> rfl

theorem sampleCellVal_mem (v : Int) (r : ℚ)
    (hv : v = -1 ∨ v = 0 ∨ v = 1 ∨ v = 2) (h0 : 0 ≤ r) (h1 : r < 1) :
    Sprite.sampleCellVal v r = -1 ∨ Sprite.sampleCellVal v r = 0 ∨
      Sprite.sampleCellVal v r = 1 := by
  rcases hv with h | h | h | h <;> subst h
  · left; rfl
  · right; left; rfl
  · by_cases hr : r < 1/2
    · right; left
      rw [sampleCellVal_one, round_eq_zero_of_lt_half r h0 hr]
    · right; right
      rw [sampleCellVal_one, round_eq_one_of_half_le r (le_of_not_lt hr) h1]
  · rw [sampleCellVal_two]
    by_cases hr : r > 1/2
    · right; right; rw [if_pos hr]
    · left; rw [if_neg hr]

theorem sampleCellVal_one_eq_one_iff (r : ℚ) (h0 : 0 ≤ r) (h1 : r < 1) :
    Sprite.sampleCellVal 1 r = 1 ↔ 1/2 ≤ r := by
  rw [sampleCellVal_one]
  constructor
  · intro h
    by_contra hc
    rw [round_eq_zero_of_lt_half r h0 (lt_of_not_le hc)] at h
    exact absurd h (by decide)
  · intro h
    rw [round_eq_one_of_half_le r h h1]

/-- The set of uniform draws in `[0, 1)` under which a code-`1` cell
becomes body is exactly `[1/2, 1)`, and the set under which it becomes
empty is exactly `[0, 1/2)`: each half of the unit interval. -/
theorem sampleCellVal_one_sets :
    {r : ℚ | r ∈ Set.Ico (0 : ℚ) 1 ∧ Sprite.sampleCellVal 1 r = 1}
        = Set.Ico (1/2 : ℚ) 1 ∧
      {r : ℚ | r ∈ Set.Ico (0 : ℚ) 1 ∧ Sprite.sampleCellVal 1 r = 0}
        = Set.Ico (0 : ℚ) (1/2) := by
  constructor
  · ext r
    simp only [Set.mem_setOf_eq, Set.mem_Ico]
    constructor
    · rintro ⟨⟨ha, hb⟩, hval⟩
      exact ⟨(sampleCellVal_one_eq_one_iff r ha hb).mp hval, hb⟩
    · rintro ⟨ha, hb⟩
      have h0 : (0 : ℚ) ≤ r := le_trans (by norm_num) ha
      exact ⟨⟨h0, hb⟩, (sampleCellVal_one_eq_one_iff r h0 hb).mpr ha⟩
  · ext r
    simp only [Set.mem_setOf_eq, Set.mem_Ico]
    constructor
    · rintro ⟨⟨ha, hb⟩, hval⟩
      refine ⟨ha, ?_⟩
      by_contra hc
      have h1 := (sampleCellVal_one_eq_one_iff r ha hb).mpr (le_of_not_lt hc)
      rw [h1] at hval
      exact absurd hval (by decide)
    · rintro ⟨ha, hb⟩
      have hb1 : r < 1 := lt_trans hb (by norm_num)
      refine ⟨⟨ha, hb1⟩, ?_⟩
      rw [sampleCellVal_one, round_eq_zero_of_lt_half r ha hb]

/-- The set of uniform draws in `[0, 1)` under which a code-`2` cell
becomes body is exactly `(1/2, 1)` and the set under which it becomes
border is exactly `[0, 1/2]`: again each of measure one half. -/
theorem sampleCellVal_two_sets :
    {r : ℚ | r ∈ Set.Ico (0 : ℚ) 1 ∧ Sprite.sampleCellVal 2 r = 1}
        = Set.Ioo (1/2 : ℚ) 1 ∧
      {r : ℚ | r ∈ Set.Ico (0 : ℚ) 1 ∧ Sprite.sampleCellVal 2 r = -1}
        = Set.Icc (0 : ℚ) (1/2) := by
  constructor
  · ext r
    simp only [Set.mem_setOf_eq, Set.mem_Ico, Set.mem_Ioo, sampleCellVal_two]
    by_cases hr : r > 1/2
    · rw [if_pos hr]
      constructor
      · rintro ⟨⟨-, hb⟩, -⟩
        exact ⟨hr, hb⟩
      · rintro ⟨-, hb⟩
        exact ⟨⟨le_trans (by norm_num) (le_of_lt hr), hb⟩, rfl⟩
    · rw [if_neg hr]
      constructor
      · rintro ⟨-, hc⟩
        exact absurd hc (by decide)
      · rintro ⟨hc, -⟩
        exact absurd hc hr
  · ext r
    simp only [Set.mem_setOf_eq, Set.mem_Ico, Set.mem_Icc, sampleCellVal_two]
    by_cases hr : r > 1/2
    · rw [if_pos hr]
      constructor
      · rintro ⟨-, hc⟩
        exact absurd hc (by decide)
      · rintro ⟨-, hc⟩
        exact absurd hr (not_lt.mpr hc)
    · rw [if_neg hr]
      constructor
      · rintro ⟨⟨ha, -⟩, -⟩
        exact ⟨ha, le_of_not_lt hr⟩
      · rintro ⟨ha, hb⟩
        exact ⟨⟨ha, lt_of_le_of_lt hb (by norm_num)⟩, rfl⟩

/-- Distinct draw-consuming cells consume draws at distinct indices:
the index function `stochBefore g l` is injective on stochastic cells. -/
theorem stochBefore_injOn (g : Grid) :
    ∀ (l : List (Nat × Nat)) (p q : Nat × Nat), p ≠ q → p ∈ l → q ∈ l →
      isStoch g p = true → isStoch g q = true →
      stochBefore g l p ≠ stochBefore g l q := by
  intro l
  induction l with
  | nil => intro p q _ hp _ _ _; cases hp
  | cons a t ih =>
    intro p q hpq hp hq hsp hsq
    unfold stochBefore
    by_cases hap : a = p
    · subst hap
      have hqt : q ∈ t := by
        rcases List.mem_cons.mp hq with h | h
        · exact absurd h.symm hpq
        · exact h
      have h1 : List.takeWhile (fun r => decide (r ≠ a)) (a :: t) = [] := by
        rw [List.takeWhile_cons]
        simp
      have haq2 : a ≠ q := hpq
      have h2 : List.takeWhile (fun r => decide (r ≠ q)) (a :: t)
          = a :: List.takeWhile (fun r => decide (r ≠ q)) t := by
        rw [List.takeWhile_cons]
        simp [haq2]
      rw [h1, h2, List.countP_cons, List.countP_nil]
      simp only [hsp, if_true]
      omega
    · by_cases haq : a = q
      · subst haq
        have hpt : p ∈ t := by
          rcases List.mem_cons.mp hp with h | h
          · exact absurd h hpq
          · exact h
        have hqp : a ≠ p := fun hc => hpq hc.symm
        have h1 : List.takeWhile (fun r => decide (r ≠ p)) (a :: t)
            = a :: List.takeWhile (fun r => decide (r ≠ p)) t := by
          rw [List.takeWhile_cons]
          simp [hqp]
        have h2 : List.takeWhile (fun r => decide (r ≠ a)) (a :: t) = [] := by
          rw [List.takeWhile_cons]
          simp
        rw [h1, h2, List.countP_cons, List.countP_nil]
        simp only [hsq, if_true]
        omega
      · have hpt : p ∈ t := by
          rcases List.mem_cons.mp hp with h | h
          · exact absurd h.symm hap
          · exact h
        have hqt : q ∈ t := by
          rcases List.mem_cons.mp hq with h | h
          · exact absurd h.symm haq
          · exact h
        have hap' : a ≠ p := hap
        have haq' : a ≠ q := haq
        have h1 : List.takeWhile (fun r => decide (r ≠ p)) (a :: t)
            = a :: List.takeWhile (fun r => decide (r ≠ p)) t := by
          rw [List.takeWhile_cons]
          simp [hap']
        have h2 : List.takeWhile (fun r => decide (r ≠ q)) (a :: t)
            = a :: List.takeWhile (fun r => decide (r ≠ q)) t := by
          rw [List.takeWhile_cons]
          simp [haq']
        rw [h1, h2, List.countP_cons, List.countP_cons]
        have hih := ih p q hpq hpt hqt hsp hsq
        unfold stochBefore at hih
        omega

/-! ## Characterization of the edge-synthesis loop

`generateEdges` mutates the grid in place while scanning it, but its net
effect is order-independent: a cell ends as `-1` exactly when it started
as `0` and has an in-bounds orthogonal neighbour with a positive (body)
value; every other cell is unchanged.  The proof threads an invariant
parameterized by the set of already-visited cells. -/

theorem mark_apply (g : Grid) (c : Prop) [Decidable c] (a b x y : Nat) :
    Sprite.mark g c a b x y =
      if x = a ∧ y = b ∧ c ∧ g a b = 0 then -1 else g x y := by
  unfold Sprite.mark
  by_cases hc : c ∧ g a b = 0
  · rw [if_pos hc, setData_apply]
    by_cases hxy : x = a ∧ y = b
    · rw [if_pos hxy, if_pos ⟨hxy.1, hxy.2, hc.1, hc.2⟩]
    · rw [if_neg hxy, if_neg (fun hk => hxy ⟨hk.1, hk.2.1⟩)]
  · rw [if_neg hc, if_neg (fun hk => hc ⟨hk.2.2.1, hk.2.2.2⟩)]

theorem edgeStep_apply (w h : Nat) (g : Grid) (p : Nat × Nat) (x y : Nat) :
    Sprite.edgeStep w h g p x y =
      if g p.1 p.2 > 0 ∧ g x y = 0 ∧ stepWrites w h p x y then -1 else g x y := by
  by_cases hb : g p.1 p.2 > 0
  · unfold Sprite.edgeStep
    rw [if_pos hb]
    have e2 : (Sprite.mark g (1 ≤ p.2) p.1 (p.2 - 1)) p.1 (p.2 + 1)
        = g p.1 (p.2 + 1) := by
      rw [mark_apply]
      refine if_neg ?_
      rintro ⟨-, hc, -⟩
      omega
    have e3 : (Sprite.mark (Sprite.mark g (1 ≤ p.2) p.1 (p.2 - 1))
        (p.2 + 1 < h) p.1 (p.2 + 1)) (p.1 - 1) p.2 = g (p.1 - 1) p.2 := by
      have s1 : (Sprite.mark (Sprite.mark g (1 ≤ p.2) p.1 (p.2 - 1))
          (p.2 + 1 < h) p.1 (p.2 + 1)) (p.1 - 1) p.2
          = (Sprite.mark g (1 ≤ p.2) p.1 (p.2 - 1)) (p.1 - 1) p.2 := by
        rw [mark_apply]
        refine if_neg ?_
        rintro ⟨-, hc, -⟩
        omega
      rw [s1, mark_apply]
      refine if_neg ?_
      rintro ⟨-, hc2, hc3, -⟩
      omega
    have e4 : (Sprite.mark (Sprite.mark (Sprite.mark g (1 ≤ p.2) p.1 (p.2 - 1))
        (p.2 + 1 < h) p.1 (p.2 + 1)) (1 ≤ p.1) (p.1 - 1) p.2) (p.1 + 1) p.2
        = g (p.1 + 1) p.2 := by
      have s1 : (Sprite.mark (Sprite.mark (Sprite.mark g (1 ≤ p.2) p.1 (p.2 - 1))
          (p.2 + 1 < h) p.1 (p.2 + 1)) (1 ≤ p.1) (p.1 - 1) p.2) (p.1 + 1) p.2
          = (Sprite.mark (Sprite.mark g (1 ≤ p.2) p.1 (p.2 - 1))
            (p.2 + 1 < h) p.1 (p.2 + 1)) (p.1 + 1) p.2 := by
        rw [mark_apply]
        refine if_neg ?_
        rintro ⟨hc, -⟩
        omega
      have s2 : (Sprite.mark (Sprite.mark g (1 ≤ p.2) p.1 (p.2 - 1))
          (p.2 + 1 < h) p.1 (p.2 + 1)) (p.1 + 1) p.2
          = (Sprite.mark g (1 ≤ p.2) p.1 (p.2 - 1)) (p.1 + 1) p.2 := by
        rw [mark_apply]
        refine if_neg ?_
        rintro ⟨hc, -⟩
        omega
      rw [s1, s2, mark_apply]
      refine if_neg ?_
      rintro ⟨hc, -⟩
      omega
    have h4 : (Sprite.mark (Sprite.mark (Sprite.mark (Sprite.mark g (1 ≤ p.2) p.1 (p.2 - 1))
        (p.2 + 1 < h) p.1 (p.2 + 1)) (1 ≤ p.1) (p.1 - 1) p.2)
        (p.1 + 1 < w) (p.1 + 1) p.2) x y
        = if x = p.1 + 1 ∧ y = p.2 ∧ (p.1 + 1 < w) ∧ g (p.1 + 1) p.2 = 0 then -1
          else (Sprite.mark (Sprite.mark (Sprite.mark g (1 ≤ p.2) p.1 (p.2 - 1))
            (p.2 + 1 < h) p.1 (p.2 + 1)) (1 ≤ p.1) (p.1 - 1) p.2) x y := by
      rw [mark_apply, e4]
    have h3 : (Sprite.mark (Sprite.mark (Sprite.mark g (1 ≤ p.2) p.1 (p.2 - 1))
        (p.2 + 1 < h) p.1 (p.2 + 1)) (1 ≤ p.1) (p.1 - 1) p.2) x y
        = if x = p.1 - 1 ∧ y = p.2 ∧ (1 ≤ p.1) ∧ g (p.1 - 1) p.2 = 0 then -1
          else (Sprite.mark (Sprite.mark g (1 ≤ p.2) p.1 (p.2 - 1))
            (p.2 + 1 < h) p.1 (p.2 + 1)) x y := by
      rw [mark_apply, e3]
    have h2 : (Sprite.mark (Sprite.mark g (1 ≤ p.2) p.1 (p.2 - 1))
        (p.2 + 1 < h) p.1 (p.2 + 1)) x y
        = if x = p.1 ∧ y = p.2 + 1 ∧ (p.2 + 1 < h) ∧ g p.1 (p.2 + 1) = 0 then -1
          else (Sprite.mark g (1 ≤ p.2) p.1 (p.2 - 1)) x y := by
      rw [mark_apply, e2]
    have h1 : (Sprite.mark g (1 ≤ p.2) p.1 (p.2 - 1)) x y
        = if x = p.1 ∧ y = p.2 - 1 ∧ (1 ≤ p.2) ∧ g p.1 (p.2 - 1) = 0 then -1
          else g x y := mark_apply g (1 ≤ p.2) p.1 (p.2 - 1) x y
    rw [h4, h3, h2, h1]
    have hiff : (g x y = 0 ∧ stepWrites w h p x y) ↔
        ((x = p.1 ∧ y = p.2 - 1 ∧ (1 ≤ p.2) ∧ g p.1 (p.2 - 1) = 0) ∨
         (x = p.1 ∧ y = p.2 + 1 ∧ (p.2 + 1 < h) ∧ g p.1 (p.2 + 1) = 0) ∨
         (x = p.1 - 1 ∧ y = p.2 ∧ (1 ≤ p.1) ∧ g (p.1 - 1) p.2 = 0) ∨
         (x = p.1 + 1 ∧ y = p.2 ∧ (p.1 + 1 < w) ∧ g (p.1 + 1) p.2 = 0)) := by
      unfold stepWrites
      constructor
      · rintro ⟨h0, ⟨hx, hy, hc⟩ | ⟨hx, hy, hc⟩ | ⟨hx, hy, hc⟩ | ⟨hx, hy, hc⟩⟩
        · exact Or.inl ⟨hx, hy, hc, by rw [← hx, ← hy]; exact h0⟩
        · exact Or.inr (Or.inl ⟨hx, hy, hc, by rw [← hx, ← hy]; exact h0⟩)
        · exact Or.inr (Or.inr (Or.inl ⟨hx, hy, hc, by rw [← hx, ← hy]; exact h0⟩))
        · exact Or.inr (Or.inr (Or.inr ⟨hx, hy, hc, by rw [← hx, ← hy]; exact h0⟩))
      · rintro (⟨hx, hy, hc, hv⟩ | ⟨hx, hy, hc, hv⟩ | ⟨hx, hy, hc, hv⟩ | ⟨hx, hy, hc, hv⟩)
        · exact ⟨by rw [hx, hy]; exact hv, Or.inl ⟨hx, hy, hc⟩⟩
        · exact ⟨by rw [hx, hy]; exact hv, Or.inr (Or.inl ⟨hx, hy, hc⟩)⟩
        · exact ⟨by rw [hx, hy]; exact hv, Or.inr (Or.inr (Or.inl ⟨hx, hy, hc⟩))⟩
        · exact ⟨by rw [hx, hy]; exact hv, Or.inr (Or.inr (Or.inr ⟨hx, hy, hc⟩))⟩
    by_cases hK : g x y = 0 ∧ stepWrites w h p x y
    · have hrhs : (if g p.1 p.2 > 0 ∧ g x y = 0 ∧ stepWrites w h p x y
          then (-1 : Int) else g x y) = -1 := if_pos ⟨hb, hK.1, hK.2⟩
      rw [hrhs]
      have hd := hiff.mp hK
      split_ifs with k4 k3 k2 k1
      · rfl
      · rfl
      · rfl
      · rfl
      · rcases hd with d | d | d | d
        · exact absurd d k1
        · exact absurd d k2
        · exact absurd d k3
        · exact absurd d k4
    · have hrhs : (if g p.1 p.2 > 0 ∧ g x y = 0 ∧ stepWrites w h p x y
          then (-1 : Int) else g x y) = g x y :=
        if_neg (fun hc => hK ⟨hc.2.1, hc.2.2⟩)
      rw [hrhs]
      have hd : ¬((x = p.1 ∧ y = p.2 - 1 ∧ (1 ≤ p.2) ∧ g p.1 (p.2 - 1) = 0) ∨
          (x = p.1 ∧ y = p.2 + 1 ∧ (p.2 + 1 < h) ∧ g p.1 (p.2 + 1) = 0) ∨
          (x = p.1 - 1 ∧ y = p.2 ∧ (1 ≤ p.1) ∧ g (p.1 - 1) p.2 = 0) ∨
          (x = p.1 + 1 ∧ y = p.2 ∧ (p.1 + 1 < w) ∧ g (p.1 + 1) p.2 = 0)) :=
        fun hc => hK (hiff.mpr hc)
      split_ifs with k4 k3 k2 k1
      · exact absurd (Or.inr (Or.inr (Or.inr k4))) hd
      · exact absurd (Or.inr (Or.inr (Or.inl k3))) hd
      · exact absurd (Or.inr (Or.inl k2)) hd
      · exact absurd (Or.inl k1) hd
      · rfl
  · unfold Sprite.edgeStep
    rw [if_neg hb, if_neg (fun hc => hb hc.1)]

theorem EdgeApprox.pos_iff {w h : Nat} {D : Nat × Nat → Bool} {orig cur : Grid}
    (hc : EdgeApprox w h D orig cur) (a b : Nat) :
    cur a b > 0 ↔ orig a b > 0 := by
  rw [hc a b]
  by_cases hcase : orig a b = 0 ∧ doneNbr w h D orig a b = true
  · rw [if_pos hcase, hcase.1]
    constructor
    · intro hx; exact absurd hx (by decide)
    · intro hx; exact absurd hx (by decide)
  · rw [if_neg hcase]

theorem EdgeApprox.zero_iff {w h : Nat} {D : Nat × Nat → Bool} {orig cur : Grid}
    (hc : EdgeApprox w h D orig cur) (a b : Nat) :
    cur a b = 0 ↔ (orig a b = 0 ∧ doneNbr w h D orig a b = false) := by
  rw [hc a b]
  by_cases hcase : orig a b = 0 ∧ doneNbr w h D orig a b = true
  · rw [if_pos hcase]
    constructor
    · intro hx; exact absurd hx (by decide)
    · rintro ⟨-, hfalse⟩
      rw [hcase.2] at hfalse
      exact absurd hfalse (by decide)
  · rw [if_neg hcase]
    constructor
    · intro hx
      refine ⟨hx, ?_⟩
      cases hdn : doneNbr w h D orig a b
      · rfl
      · exact absurd ⟨hx, hdn⟩ hcase
    · rintro ⟨hx, -⟩
      exact hx

theorem doneNbr_mono (w h : Nat) (D E : Nat × Nat → Bool) (g : Grid) (x y : Nat)
    (hDE : ∀ q, D q = true → E q = true)
    (hd : doneNbr w h D g x y = true) : doneNbr w h E g x y = true := by
  simp only [doneNbr, Bool.or_eq_true, Bool.and_eq_true] at hd ⊢
  rcases hd with ((⟨⟨⟨h1, h2⟩, h3⟩, h4⟩ | ⟨h1, h2⟩) | ⟨⟨⟨h1, h2⟩, h3⟩, h4⟩) | ⟨h1, h2⟩
  · exact Or.inl (Or.inl (Or.inl ⟨⟨⟨hDE _ h1, h2⟩, h3⟩, h4⟩))
  · exact Or.inl (Or.inl (Or.inr ⟨hDE _ h1, h2⟩))
  · exact Or.inl (Or.inr ⟨⟨⟨hDE _ h1, h2⟩, h3⟩, h4⟩)
  · exact Or.inr ⟨hDE _ h1, h2⟩

theorem doneNbr_congr (w h : Nat) (D E : Nat × Nat → Bool) (g : Grid)
    (hDE : ∀ q, D q = E q) (x y : Nat) :
    doneNbr w h D g x y = doneNbr w h E g x y := by
  unfold doneNbr
  rw [hDE (x, y - 1), hDE (x, y + 1), hDE (x - 1, y), hDE (x + 1, y)]

theorem EdgeApprox_congr {w h : Nat} {D E : Nat × Nat → Bool} {orig cur : Grid}
    (hDE : ∀ q, D q = E q) (hc : EdgeApprox w h D orig cur) :
    EdgeApprox w h E orig cur := by
  intro x y
  rw [hc x y, doneNbr_congr w h D E orig hDE x y]

/-- One `generateEdges` iteration extends the visited set by `p` while
preserving the scan invariant. -/
theorem edgeStep_approx (w h : Nat) (D : Nat × Nat → Bool) (orig cur : Grid)
    (p : Nat × Nat) (hcur : EdgeApprox w h D orig cur) :
    EdgeApprox w h (fun q => D q || decide (q = p)) orig
      (Sprite.edgeStep w h cur p) := by
  intro x y
  rw [edgeStep_apply]
  by_cases hcond : cur p.1 p.2 > 0 ∧ cur x y = 0 ∧ stepWrites w h p x y
  · rw [if_pos hcond]
    obtain ⟨hcp, hc0, hsw⟩ := hcond
    have hop : orig p.1 p.2 > 0 := (EdgeApprox.pos_iff hcur p.1 p.2).mp hcp
    have ho0 : orig x y = 0 := ((EdgeApprox.zero_iff hcur x y).mp hc0).1
    have hdn : doneNbr w h (fun q => D q || decide (q = p)) orig x y = true := by
      simp only [doneNbr, Bool.or_eq_true, Bool.and_eq_true, decide_eq_true_eq]
      rcases hsw with ⟨hx, hy, hg⟩ | ⟨hx, hy, hg⟩ | ⟨hx, hy, hg⟩ | ⟨hx, hy, hg⟩
      · refine Or.inl (Or.inl (Or.inr ⟨Or.inr ?_, ?_⟩))
        · exact Prod.ext_iff.mpr ⟨hx, by omega⟩
        · have h2 : y + 1 = p.2 := by omega
          rw [hx, h2]
          exact hop
      · refine Or.inl (Or.inl (Or.inl ⟨⟨⟨Or.inr ?_, ?_⟩, ?_⟩, ?_⟩))
        · exact Prod.ext_iff.mpr ⟨hx, by omega⟩
        · omega
        · omega
        · have h2 : y - 1 = p.2 := by omega
          rw [hx, h2]
          exact hop
      · refine Or.inr ⟨Or.inr ?_, ?_⟩
        · exact Prod.ext_iff.mpr ⟨by omega, hy⟩
        · have h1 : x + 1 = p.1 := by omega
          rw [h1, hy]
          exact hop
      · refine Or.inl (Or.inr ⟨⟨⟨Or.inr ?_, ?_⟩, ?_⟩, ?_⟩)
        · exact Prod.ext_iff.mpr ⟨by omega, hy⟩
        · omega
        · omega
        · have h1 : x - 1 = p.1 := by omega
          rw [h1, hy]
          exact hop
    rw [if_pos ⟨ho0, hdn⟩]
  · rw [if_neg hcond]
    rw [hcur x y]
    by_cases hd : orig x y = 0 ∧ doneNbr w h D orig x y = true
    · rw [if_pos hd]
      have hdn' : doneNbr w h (fun q => D q || decide (q = p)) orig x y = true :=
        doneNbr_mono w h D _ orig x y (fun q hq => by simp [hq]) hd.2
      rw [if_pos ⟨hd.1, hdn'⟩]
    · rw [if_neg hd]
      refine (if_neg ?_).symm
      rintro ⟨ho0, hdn'⟩
      have hdnD : doneNbr w h D orig x y = false := by
        rcases Bool.eq_false_or_eq_true (doneNbr w h D orig x y) with hcase | hcase
        · exact absurd ⟨ho0, hcase⟩ hd
        · exact hcase
      have hc0 : cur x y = 0 := (EdgeApprox.zero_iff hcur x y).mpr ⟨ho0, hdnD⟩
      simp only [doneNbr, Bool.or_eq_true, Bool.and_eq_true, decide_eq_true_eq] at hdn'
      have hDfalse : ∀ P : Prop, doneNbr w h D orig x y = true → P := by
        intro P hP
        rw [hdnD] at hP
        exact absurd hP (by decide)
      rcases hdn' with ((⟨⟨⟨hDb, hg1⟩, hg2⟩, hval⟩ | ⟨hDb, hval⟩) |
          ⟨⟨⟨hDb, hg1⟩, hg2⟩, hval⟩) | ⟨hDb, hval⟩
      · rcases hDb with hD | hP
        · refine hDfalse _ ?_
          simp only [doneNbr, Bool.or_eq_true, Bool.and_eq_true, decide_eq_true_eq]
          exact Or.inl (Or.inl (Or.inl ⟨⟨⟨hD, hg1⟩, hg2⟩, hval⟩))
        · have hxy := Prod.ext_iff.mp hP
          have hcp : cur p.1 p.2 > 0 := (EdgeApprox.pos_iff hcur p.1 p.2).mpr
            (by rw [← hxy.1, ← hxy.2]; exact hval)
          refine hcond ⟨hcp, hc0, ?_⟩
          exact Or.inr (Or.inl ⟨hxy.1, by omega, by omega⟩)
      · rcases hDb with hD | hP
        · refine hDfalse _ ?_
          simp only [doneNbr, Bool.or_eq_true, Bool.and_eq_true, decide_eq_true_eq]
          exact Or.inl (Or.inl (Or.inr ⟨hD, hval⟩))
        · have hxy := Prod.ext_iff.mp hP
          have hcp : cur p.1 p.2 > 0 := (EdgeApprox.pos_iff hcur p.1 p.2).mpr
            (by rw [← hxy.1, ← hxy.2]; exact hval)
          refine hcond ⟨hcp, hc0, ?_⟩
          exact Or.inl ⟨hxy.1, by omega, by omega⟩
      · rcases hDb with hD | hP
        · refine hDfalse _ ?_
          simp only [doneNbr, Bool.or_eq_true, Bool.and_eq_true, decide_eq_true_eq]
          exact Or.inl (Or.inr ⟨⟨⟨hD, hg1⟩, hg2⟩, hval⟩)
        · have hxy := Prod.ext_iff.mp hP
          have hcp : cur p.1 p.2 > 0 := (EdgeApprox.pos_iff hcur p.1 p.2).mpr
            (by rw [← hxy.1, ← hxy.2]; exact hval)
          refine hcond ⟨hcp, hc0, ?_⟩
          exact Or.inr (Or.inr (Or.inr ⟨by omega, hxy.2, by omega⟩))
      · rcases hDb with hD | hP
        · refine hDfalse _ ?_
          simp only [doneNbr, Bool.or_eq_true, Bool.and_eq_true, decide_eq_true_eq]
          exact Or.inr ⟨hD, hval⟩
        · have hxy := Prod.ext_iff.mp hP
          have hcp : cur p.1 p.2 > 0 := (EdgeApprox.pos_iff hcur p.1 p.2).mpr
            (by rw [← hxy.1, ← hxy.2]; exact hval)
          refine hcond ⟨hcp, hc0, ?_⟩
          exact Or.inr (Or.inr (Or.inl ⟨by omega, hxy.2, by omega⟩))

theorem edges_foldl_approx (w h : Nat) (orig : Grid) :
    ∀ (l : List (Nat × Nat)) (D : Nat × Nat → Bool) (cur : Grid),
      EdgeApprox w h D orig cur →
      EdgeApprox w h (fun q => D q || decide (q ∈ l)) orig
        (l.foldl (Sprite.edgeStep w h) cur) := by
  intro l
  induction l with
  | nil =>
    intro D cur hcur
    refine EdgeApprox_congr (fun q => ?_) hcur
    simp
  | cons p t ih =>
    intro D cur hcur
    rw [List.foldl_cons]
    have hstep := edgeStep_approx w h D orig cur p hcur
    have hrec := ih (fun q => D q || decide (q = p)) _ hstep
    refine EdgeApprox_congr (fun q => ?_) hrec
    have hsplit : decide (q ∈ p :: t) = (decide (q = p) || decide (q ∈ t)) := by
      by_cases hq : q = p
      · simp [hq, List.mem_cons]
      · by_cases hq2 : q ∈ t
        · simp [hq, hq2, List.mem_cons]
        · simp [hq, hq2, List.mem_cons]
    rw [hsplit, Bool.or_assoc]

/-- Net effect of the whole `generateEdges` scan, order-independent form:
an in-bounds cell that was `0` with a positive in-bounds orthogonal
neighbour becomes `-1`; every other cell keeps its value. -/
theorem generateEdges_apply (w h : Nat) (g : Grid) (x y : Nat) :
    Sprite.generateEdges w h g x y =
      if x < w ∧ y < h ∧ g x y = 0 ∧ bodyNbr w h g x y = true then -1
      else g x y := by
  have h0 : EdgeApprox w h (fun _ => false) g g := by
    intro a b
    have hdn : doneNbr w h (fun _ => false) g a b = false := by
      simp [doneNbr]
    rw [hdn]
    simp
  have hfold := edges_foldl_approx w h g (coordList w h) (fun _ => false) g h0
  have hcond : (g x y = 0 ∧
        doneNbr w h (fun q => false || decide (q ∈ coordList w h)) g x y = true)
      ↔ (x < w ∧ y < h ∧ g x y = 0 ∧ bodyNbr w h g x y = true) := by
    constructor
    · rintro ⟨hv0, hdn⟩
      simp only [doneNbr, Bool.or_eq_true, Bool.and_eq_true, Bool.false_or,
        decide_eq_true_eq, mem_coordList] at hdn
      rcases hdn with ((⟨⟨⟨hb, hg1⟩, hg2⟩, hval⟩ | ⟨hb, hval⟩) |
          ⟨⟨⟨hb, hg1⟩, hg2⟩, hval⟩) | ⟨hb, hval⟩
      · refine ⟨hb.1, hg2, hv0, ?_⟩
        simp only [bodyNbr, Bool.or_eq_true, Bool.and_eq_true, decide_eq_true_eq]
        exact Or.inl (Or.inl (Or.inl ⟨hg1, hval⟩))
      · refine ⟨hb.1, by omega, hv0, ?_⟩
        simp only [bodyNbr, Bool.or_eq_true, Bool.and_eq_true, decide_eq_true_eq]
        exact Or.inl (Or.inl (Or.inr ⟨hb.2, hval⟩))
      · refine ⟨hg2, hb.2, hv0, ?_⟩
        simp only [bodyNbr, Bool.or_eq_true, Bool.and_eq_true, decide_eq_true_eq]
        exact Or.inl (Or.inr ⟨hg1, hval⟩)
      · refine ⟨by omega, hb.2, hv0, ?_⟩
        simp only [bodyNbr, Bool.or_eq_true, Bool.and_eq_true, decide_eq_true_eq]
        exact Or.inr ⟨hb.1, hval⟩
    · rintro ⟨hxw, hyh, hv0, hbn⟩
      refine ⟨hv0, ?_⟩
      simp only [bodyNbr, Bool.or_eq_true, Bool.and_eq_true, decide_eq_true_eq] at hbn
      simp only [doneNbr, Bool.or_eq_true, Bool.and_eq_true, Bool.false_or,
        decide_eq_true_eq, mem_coordList]
      rcases hbn with ((⟨hg1, hval⟩ | ⟨hg1, hval⟩) | ⟨hg1, hval⟩) | ⟨hg1, hval⟩
      · exact Or.inl (Or.inl (Or.inl ⟨⟨⟨⟨hxw, by omega⟩, hg1⟩, hyh⟩, hval⟩))
      · exact Or.inl (Or.inl (Or.inr ⟨⟨hxw, hg1⟩, hval⟩))
      · exact Or.inl (Or.inr ⟨⟨⟨⟨by omega, hyh⟩, hg1⟩, hxw⟩, hval⟩)
      · exact Or.inr ⟨⟨hg1, hyh⟩, hval⟩
  unfold Sprite.generateEdges
  rw [hfold x y]
  by_cases hc : g x y = 0 ∧
      doneNbr w h (fun q => false || decide (q ∈ coordList w h)) g x y = true
  · rw [if_pos hc, if_pos (hcond.mp hc)]
  · rw [if_neg hc, if_neg (fun hk => hc (hcond.mpr hk))]

theorem generateEdges_pos_iff (w h : Nat) (g : Grid) (a b : Nat) :
    Sprite.generateEdges w h g a b > 0 ↔ g a b > 0 := by
  rw [generateEdges_apply]
  by_cases hc : a < w ∧ b < h ∧ g a b = 0 ∧ bodyNbr w h g a b = true
  · rw [if_pos hc, hc.2.2.1]
    constructor
    · intro hk; exact absurd hk (by decide)
    · intro hk; exact absurd hk (by decide)
  · rw [if_neg hc]

theorem bodyNbr_congr_pos (w h : Nat) (g g' : Grid)
    (hpos : ∀ a b, g a b > 0 ↔ g' a b > 0) (x y : Nat) :
    bodyNbr w h g x y = bodyNbr w h g' x y := by
  unfold bodyNbr
  rw [decide_eq_decide.mpr (hpos x (y - 1)), decide_eq_decide.mpr (hpos x (y + 1)),
    decide_eq_decide.mpr (hpos (x - 1) y), decide_eq_decide.mpr (hpos (x + 1) y)]

/-- Edge synthesis is idempotent: a second scan changes nothing. -/
theorem generateEdges_idem (w h : Nat) (g : Grid) :
    Sprite.generateEdges w h (Sprite.generateEdges w h g)
      = Sprite.generateEdges w h g := by
  funext x y
  rw [generateEdges_apply w h (Sprite.generateEdges w h g) x y]
  by_cases hc : x < w ∧ y < h ∧ Sprite.generateEdges w h g x y = 0 ∧
      bodyNbr w h (Sprite.generateEdges w h g) x y = true
  · exfalso
    obtain ⟨hxw, hyh, hv0, hbn⟩ := hc
    rw [generateEdges_apply w h g x y] at hv0
    by_cases hfirst : x < w ∧ y < h ∧ g x y = 0 ∧ bodyNbr w h g x y = true
    · rw [if_pos hfirst] at hv0
      exact absurd hv0 (by decide)
    · rw [if_neg hfirst] at hv0
      rw [bodyNbr_congr_pos w h _ g (generateEdges_pos_iff w h g) x y] at hbn
      exact hfirst ⟨hxw, hyh, hv0, hbn⟩
  · rw [if_neg hc]

/-- Horizontal mirror symmetry is preserved by edge synthesis. -/
theorem generateEdges_symmX (w h : Nat) (g : Grid)
    (hsym : ∀ a b, a < w → b < h → g a b = g (w - 1 - a) b) :
    ∀ x y, x < w → y < h →
      Sprite.generateEdges w h g x y
        = Sprite.generateEdges w h g (w - 1 - x) y := by
  have hdir : ∀ a y, a < w → y < h → bodyNbr w h g a y = true →
      bodyNbr w h g (w - 1 - a) y = true := by
    intro a y ha hy hb
    simp only [bodyNbr, Bool.or_eq_true, Bool.and_eq_true, decide_eq_true_eq] at hb ⊢
    rcases hb with ((⟨hg1, hval⟩ | ⟨hg1, hval⟩) | ⟨hg1, hval⟩) | ⟨hg1, hval⟩
    · refine Or.inl (Or.inl (Or.inl ⟨hg1, ?_⟩))
      rw [← hsym a (y - 1) ha (by omega)]
      exact hval
    · refine Or.inl (Or.inl (Or.inr ⟨hg1, ?_⟩))
      rw [← hsym a (y + 1) ha hg1]
      exact hval
    · refine Or.inr ⟨by omega, ?_⟩
      have he : w - 1 - a + 1 = w - 1 - (a - 1) := by omega
      rw [he, ← hsym (a - 1) y (by omega) hy]
      exact hval
    · refine Or.inl (Or.inr ⟨by omega, ?_⟩)
      have he : w - 1 - a - 1 = w - 1 - (a + 1) := by omega
      rw [he, ← hsym (a + 1) y hg1 hy]
      exact hval
  intro x y hx hy
  have hbx : w - 1 - x < w := by omega
  have hinv : w - 1 - (w - 1 - x) = x := by omega
  have hbn : bodyNbr w h g x y = true ↔ bodyNbr w h g (w - 1 - x) y = true := by
    constructor
    · exact hdir x y hx hy
    · intro hb
      have := hdir (w - 1 - x) y hbx hy hb
      rw [hinv] at this
      exact this
  have hval : g x y = g (w - 1 - x) y := hsym x y hx hy
  rw [generateEdges_apply, generateEdges_apply]
  by_cases hc : x < w ∧ y < h ∧ g x y = 0 ∧ bodyNbr w h g x y = true
  · rw [if_pos hc, if_pos ⟨hbx, hy, by rw [← hval]; exact hc.2.2.1, hbn.mp hc.2.2.2⟩]
  · rw [if_neg hc, if_neg ?_]
    · exact hval
    · rintro ⟨-, -, hv0, hb⟩
      exact hc ⟨hx, hy, by rw [hval]; exact hv0, hbn.mpr hb⟩

/-- Vertical mirror symmetry is preserved by edge synthesis. -/
theorem generateEdges_symmY (w h : Nat) (g : Grid)
    (hsym : ∀ a b, a < w → b < h → g a b = g a (h - 1 - b)) :
    ∀ x y, x < w → y < h →
      Sprite.generateEdges w h g x y
        = Sprite.generateEdges w h g x (h - 1 - y) := by
  have hdir : ∀ x b, x < w → b < h → bodyNbr w h g x b = true →
      bodyNbr w h g x (h - 1 - b) = true := by
    intro x b hx hb hbn
    simp only [bodyNbr, Bool.or_eq_true, Bool.and_eq_true, decide_eq_true_eq] at hbn ⊢
    rcases hbn with ((⟨hg1, hval⟩ | ⟨hg1, hval⟩) | ⟨hg1, hval⟩) | ⟨hg1, hval⟩
    · refine Or.inl (Or.inl (Or.inr ⟨by omega, ?_⟩))
      have he : h - 1 - b + 1 = h - 1 - (b - 1) := by omega
      rw [he, ← hsym x (b - 1) hx (by omega)]
      exact hval
    · refine Or.inl (Or.inl (Or.inl ⟨by omega, ?_⟩))
      have he : h - 1 - b - 1 = h - 1 - (b + 1) := by omega
      rw [he, ← hsym x (b + 1) hx hg1]
      exact hval
    · refine Or.inl (Or.inr ⟨hg1, ?_⟩)
      rw [← hsym (x - 1) b (by omega) hb]
      exact hval
    · refine Or.inr ⟨hg1, ?_⟩
      rw [← hsym (x + 1) b hg1 hb]
      exact hval
  intro x y hx hy
  have hby : h - 1 - y < h := by omega
  have hinv : h - 1 - (h - 1 - y) = y := by omega
  have hbn : bodyNbr w h g x y = true ↔ bodyNbr w h g x (h - 1 - y) = true := by
    constructor
    · exact hdir x y hx hy
    · intro hb
      have := hdir x (h - 1 - y) hx hby hb
      rw [hinv] at this
      exact this
  have hval : g x y = g x (h - 1 - y) := hsym x y hx hy
  rw [generateEdges_apply, generateEdges_apply]
  by_cases hc : x < w ∧ y < h ∧ g x y = 0 ∧ bodyNbr w h g x y = true
  · rw [if_pos hc, if_pos ⟨hx, hby, by rw [← hval]; exact hc.2.2.1, hbn.mp hc.2.2.2⟩]
  · rw [if_neg hc, if_neg ?_]
    · exact hval
    · rintro ⟨-, -, hv0, hb⟩
      exact hc ⟨hx, hy, by rw [hval]; exact hv0, hbn.mpr hb⟩

/-! ## Mirror symmetry of the pipeline -/

/-- After `mirrorX` on a grid of even width, every row is a palindrome:
`g'(a, b) = g'(w-1-a, b)`. -/
theorem mirrorX_symm (w h : Nat) (g : Grid) (hw : w % 2 = 0) :
    ∀ a b, a < w → b < h →
      Sprite.mirrorX w h g a b = Sprite.mirrorX w h g (w - 1 - a) b := by
  intro a b ha hb
  rw [mirrorX_apply, mirrorX_apply]
  by_cases hside : w - w / 2 ≤ a
  · have hneg : ¬(w - w / 2 ≤ w - 1 - a ∧ w - 1 - a < w ∧ b < h) := by
      rintro ⟨hk, -⟩
      omega
    rw [if_pos ⟨hside, ha, hb⟩, if_neg hneg]
  · have hneg : ¬(w - w / 2 ≤ a ∧ a < w ∧ b < h) := fun hk => hside hk.1
    have hpos : w - w / 2 ≤ w - 1 - a ∧ w - 1 - a < w ∧ b < h :=
      ⟨by omega, by omega, hb⟩
    rw [if_neg hneg, if_pos hpos]
    have he : w - 1 - (w - 1 - a) = a := by omega
    rw [he]

/-- After `mirrorY` on a grid of even height, every column is a palindrome. -/
theorem mirrorY_symm (w h : Nat) (g : Grid) (hh : h % 2 = 0) :
    ∀ a b, a < w → b < h →
      Sprite.mirrorY w h g a b = Sprite.mirrorY w h g a (h - 1 - b) := by
  intro a b ha hb
  rw [mirrorY_apply, mirrorY_apply]
  by_cases hside : h - h / 2 ≤ b
  · have hneg : ¬(a < w ∧ h - h / 2 ≤ h - 1 - b ∧ h - 1 - b < h) := by
      rintro ⟨-, hk, -⟩
      omega
    rw [if_pos ⟨ha, hside, hb⟩, if_neg hneg]
  · have hneg : ¬(a < w ∧ h - h / 2 ≤ b ∧ b < h) := fun hk => hside hk.2.1
    have hpos : a < w ∧ h - h / 2 ≤ h - 1 - b ∧ h - 1 - b < h :=
      ⟨ha, by omega, by omega⟩
    rw [if_neg hneg, if_pos hpos]
    have he : h - 1 - (h - 1 - b) = b := by omega
    rw [he]

/-- `mirrorY` copies whole rows, so it preserves row-palindromicity. -/
theorem mirrorY_preserves_symmX (w h : Nat) (g : Grid)
    (hsym : ∀ a b, a < w → b < h → g a b = g (w - 1 - a) b) :
    ∀ a b, a < w → b < h →
      Sprite.mirrorY w h g a b = Sprite.mirrorY w h g (w - 1 - a) b := by
  intro a b ha hb
  rw [mirrorY_apply, mirrorY_apply]
  by_cases hc : h - h / 2 ≤ b
  · rw [if_pos ⟨ha, hc, hb⟩, if_pos ⟨by omega, hc, hb⟩]
    exact hsym a (h - 1 - b) ha (by omega)
  · have h1 : ¬(a < w ∧ h - h / 2 ≤ b ∧ b < h) := fun hk => hc hk.2.1
    have h2 : ¬(w - 1 - a < w ∧ h - h / 2 ≤ b ∧ b < h) := fun hk => hc hk.2.1
    rw [if_neg h1, if_neg h2]
    exact hsym a b ha hb

theorem gridWidth_even_of_mirrorX (m : Mask) (hmx : m.mirrorX = true) :
    Sprite.gridWidth m % 2 = 0 := by
  unfold Sprite.gridWidth
  rw [if_pos hmx]
  omega

theorem gridHeight_even_of_mirrorY (m : Mask) (hmy : m.mirrorY = true) :
    Sprite.gridHeight m % 2 = 0 := by
  unfold Sprite.gridHeight
  rw [if_pos hmy]
  omega

/-- After the v0.0.2 mirror phase with `mirrorX = true`, the grid is
horizontally symmetric. -/
theorem mirroredGrid_symmX (m : Mask) (rnd : Nat → ℚ) (hmx : m.mirrorX = true) :
    ∀ a b, a < Sprite.gridWidth m → b < Sprite.gridHeight m →
      Sprite.mirroredGrid m rnd a b
        = Sprite.mirroredGrid m rnd (Sprite.gridWidth m - 1 - a) b := by
  have hw := gridWidth_even_of_mirrorX m hmx
  intro a b ha hb
  unfold Sprite.mirroredGrid
  by_cases hmy : m.mirrorY = true
  · rw [if_pos hmy, if_pos hmx]
    exact mirrorY_preserves_symmX (Sprite.gridWidth m) (Sprite.gridHeight m) _
      (mirrorX_symm (Sprite.gridWidth m) (Sprite.gridHeight m) _ hw) a b ha hb
  · rw [if_neg hmy, if_pos hmx]
    exact mirrorX_symm (Sprite.gridWidth m) (Sprite.gridHeight m) _ hw a b ha hb

/-- After the v0.0.2 mirror phase with `mirrorY = true`, the grid is
vertically symmetric. -/
theorem mirroredGrid_symmY (m : Mask) (rnd : Nat → ℚ) (hmy : m.mirrorY = true) :
    ∀ a b, a < Sprite.gridWidth m → b < Sprite.gridHeight m →
      Sprite.mirroredGrid m rnd a b
        = Sprite.mirroredGrid m rnd a (Sprite.gridHeight m - 1 - b) := by
  have hh := gridHeight_even_of_mirrorY m hmy
  intro a b ha hb
  unfold Sprite.mirroredGrid
  rw [if_pos hmy]
  exact mirrorY_symm (Sprite.gridWidth m) (Sprite.gridHeight m) _ hh a b ha hb

/-- v0.0.2 `Sprite.prototype.init` with `mirrorY = true` produces a
vertically symmetric finished grid: the property the spec states, which
holds for the revision whose `init` actually invokes `mirrorY`. -/
theorem finishedGrid_symmY (m : Mask) (rnd : Nat → ℚ) (hmy : m.mirrorY = true)
    (x y : Nat) (hx : x < Sprite.gridWidth m) (hy : y < Sprite.gridHeight m) :
    Sprite.finishedGrid m rnd x y
      = Sprite.finishedGrid m rnd x (Sprite.gridHeight m - 1 - y) := by
  unfold Sprite.finishedGrid
  exact generateEdges_symmY (Sprite.gridWidth m) (Sprite.gridHeight m)
    (Sprite.mirroredGrid m rnd) (mirroredGrid_symmY m rnd hmy) x y hx hy

/-! ## Determinism without stochastic codes -/

/-- When no scanned cell holds code `1` or `2`, `generateRandomSample`
returns the grid unchanged, for every random stream. -/
theorem sample_id_of_no_stoch (w h : Nat) (rnd : Nat → ℚ) (g : Grid)
    (hg : ∀ p ∈ coordList w h, g p.1 p.2 ≠ 1 ∧ g p.1 p.2 ≠ 2) :
    Sprite.generateRandomSample w h rnd g = g := by
  funext x y
  rw [generateRandomSample_apply]
  by_cases hin : x < w ∧ y < h
  · rw [if_pos hin]
    have hv := hg (x, y) (mem_coordList.mpr hin)
    unfold Sprite.sampleCellVal
    rw [if_neg hv.1, if_neg hv.2]
  · rw [if_neg hin]

/-- For a mask whose cells are all `-1` or `0`, the sampled grid does not
depend on the random stream: it is the masked solid grid itself. -/
theorem sampledGrid_eq_of_no_stoch (m : Mask) (rnd : Nat → ℚ)
    (hm : ∀ v ∈ m.data, v = -1 ∨ v = 0) :
    Sprite.sampledGrid m rnd
      = Sprite.applyMask m
          (Sprite.initData (Sprite.gridWidth m) (Sprite.gridHeight m)
            (fun _ _ => 0)) := by
  unfold Sprite.sampledGrid
  apply sample_id_of_no_stoch
  intro p hp
  rw [mem_coordList] at hp
  rw [applyMask_apply]
  by_cases hin : p.1 < m.width ∧ p.2 < m.height
  · rw [if_pos hin]
    by_cases hlen : p.2 * m.width + p.1 < m.data.length
    · rw [List.getD_eq_getElem m.data 0 hlen]
      have hv := hm _ (List.getElem_mem hlen)
      rcases hv with hv | hv <;> rw [hv] <;> exact ⟨by decide, by decide⟩
    · rw [List.getD_eq_default m.data 0 (by omega)]
      exact ⟨by decide, by decide⟩
  · rw [if_neg hin, initData_apply, if_pos hp]
    exact ⟨by decide, by decide⟩

/-! ## The alpha channel of the rendered buffer -/

theorem writeRGBA_alpha (buf : Nat → ℚ) (index : Nat) (r g b a : ℚ)
    (j : Nat) (hidx : index % 4 = 0) (hj : j % 4 = 3) :
    writeRGBA buf index r g b a j = if j = index + 3 then a * 255 else buf j := by
  unfold writeRGBA
  have h0 : j ≠ index := by omega
  have h1 : j ≠ index + 1 := by omega
  have h2 : j ≠ index + 2 := by omega
  rw [if_neg h0, if_neg h1, if_neg h2]

theorem pixIndex_mod4 (isVert : Bool) (ulen vlen u v : Nat) :
    pixIndex isVert ulen vlen u v % 4 = 0 := by
  unfold pixIndex
  by_cases hv : isVert
  · rw [if_pos hv]
    exact Nat.mul_mod_left _ 4
  · rw [if_neg hv]
    exact Nat.mul_mod_left _ 4

/-- One inner-loop iteration writes alpha byte `0` or `255` at its own
pixel's alpha index according to the cell value, and touches no other
alpha index. -/
theorem innerStep_alpha (o : RenderOpts) (g : Grid) (rnd : Nat → ℚ) (sinf : ℚ → ℚ)
    (piQ : ℚ) (isVert : Bool) (ulen vlen u : Nat) (hue sat : ℚ)
    (s : (Nat → ℚ) × Nat) (v : Nat) (j : Nat) (hj : j % 4 = 3) :
    (innerStep o g rnd sinf piQ isVert ulen vlen u hue sat s v).1 j =
      if j = pixIndex isVert ulen vlen u v + 3 then
        (if pixVal isVert g u v = 0 then 0 else 255)
      else s.1 j := by
  have hidx := pixIndex_mod4 isVert ulen vlen u v
  unfold innerStep
  by_cases h0 : pixVal isVert g u v ≠ 0
  · rw [if_pos h0]
    by_cases hc : o.colored
    · rw [if_pos hc]
      show writeRGBA s.1 (pixIndex isVert ulen vlen u v) _ _ _ 1 j = _
      rw [writeRGBA_alpha _ _ _ _ _ _ j hidx hj, one_mul, if_neg h0]
    · rw [if_neg hc]
      show writeRGBA s.1 (pixIndex isVert ulen vlen u v) _ _ _ 1 j = _
      rw [writeRGBA_alpha _ _ _ _ _ _ j hidx hj, one_mul, if_neg h0]
  · rw [if_neg h0]
    push_neg at h0
    show writeRGBA s.1 (pixIndex isVert ulen vlen u v) 1 1 1 0 j = _
    rw [writeRGBA_alpha _ _ _ _ _ _ j hidx hj, zero_mul, if_pos h0]

theorem inner_foldl_alpha_untouched (o : RenderOpts) (g : Grid) (rnd : Nat → ℚ)
    (sinf : ℚ → ℚ) (piQ : ℚ) (isVert : Bool) (ulen vlen u : Nat) (hue sat : ℚ) :
    ∀ (l : List Nat) (s : (Nat → ℚ) × Nat) (j : Nat), j % 4 = 3 →
      (∀ v ∈ l, j ≠ pixIndex isVert ulen vlen u v + 3) →
      ((l.foldl (innerStep o g rnd sinf piQ isVert ulen vlen u hue sat) s).1) j
        = s.1 j := by
  intro l
  induction l with
  | nil => intro s j _ _; rfl
  | cons v t ih =>
    intro s j hj hne
    rw [List.foldl_cons, ih _ j hj (fun a ha => hne a (List.mem_cons_of_mem v ha)),
      innerStep_alpha o g rnd sinf piQ isVert ulen vlen u hue sat s v j hj,
      if_neg (hne v (List.mem_cons_self v t))]

theorem inner_foldl_alpha_written (o : RenderOpts) (g : Grid) (rnd : Nat → ℚ)
    (sinf : ℚ → ℚ) (piQ : ℚ) (isVert : Bool) (ulen vlen u : Nat) (hue sat : ℚ) :
    ∀ (l : List Nat) (s : (Nat → ℚ) × Nat) (v : Nat), v ∈ l → l.Nodup →
      (∀ a ∈ l, ∀ b ∈ l, pixIndex isVert ulen vlen u a = pixIndex isVert ulen vlen u b
        → a = b) →
      ((l.foldl (innerStep o g rnd sinf piQ isVert ulen vlen u hue sat) s).1)
          (pixIndex isVert ulen vlen u v + 3)
        = (if pixVal isVert g u v = 0 then 0 else 255) := by
  intro l
  induction l with
  | nil => intro s v hv; cases hv
  | cons a t ih =>
    intro s v hv hnd hinj
    have hat : a ∉ t := (List.nodup_cons.mp hnd).1
    rw [List.foldl_cons]
    by_cases hva : v = a
    · subst hva
      rw [inner_foldl_alpha_untouched o g rnd sinf piQ isVert ulen vlen u hue sat t _
        (pixIndex isVert ulen vlen u v + 3)
        (by have := pixIndex_mod4 isVert ulen vlen u v; omega) ?hne]
      case hne =>
        intro b hb hcontra
        have heq : pixIndex isVert ulen vlen u v = pixIndex isVert ulen vlen u b := by
          omega
        have hvb := hinj v (List.mem_cons_self v t) b (List.mem_cons_of_mem v hb) heq
        rw [← hvb] at hb
        exact hat hb
      rw [innerStep_alpha o g rnd sinf piQ isVert ulen vlen u hue sat s v
        (pixIndex isVert ulen vlen u v + 3)
        (by have := pixIndex_mod4 isVert ulen vlen u v; omega), if_pos rfl]
    · have hvt : v ∈ t := by
        rcases List.mem_cons.mp hv with hk | hk
        · exact absurd hk hva
        · exact hk
      exact ih _ v hvt (List.nodup_cons.mp hnd).2
        (fun a2 ha2 b2 hb2 => hinj a2 (List.mem_cons_of_mem a ha2)
          b2 (List.mem_cons_of_mem a hb2))

theorem outerStep_alpha_untouched (o : RenderOpts) (g : Grid) (rnd : Nat → ℚ)
    (sinf : ℚ → ℚ) (piQ : ℚ) (isVert : Bool) (ulen vlen : Nat) (sat : ℚ)
    (s : (Nat → ℚ) × ℚ × Nat) (u : Nat) (j : Nat) (hj : j % 4 = 3)
    (hne : ∀ v ∈ List.range vlen, j ≠ pixIndex isVert ulen vlen u v + 3) :
    (outerStep o g rnd sinf piQ isVert ulen vlen sat s u).1 j = s.1 j := by
  exact inner_foldl_alpha_untouched o g rnd sinf piQ isVert ulen vlen u _ sat
    (List.range vlen) _ j hj hne

theorem outer_foldl_alpha_untouched (o : RenderOpts) (g : Grid) (rnd : Nat → ℚ)
    (sinf : ℚ → ℚ) (piQ : ℚ) (isVert : Bool) (ulen vlen : Nat) (sat : ℚ) :
    ∀ (l : List Nat) (s : (Nat → ℚ) × ℚ × Nat) (j : Nat), j % 4 = 3 →
      (∀ u ∈ l, ∀ v ∈ List.range vlen, j ≠ pixIndex isVert ulen vlen u v + 3) →
      ((l.foldl (outerStep o g rnd sinf piQ isVert ulen vlen sat) s).1) j = s.1 j := by
  intro l
  induction l with
  | nil => intro s j _ _; rfl
  | cons a t ih =>
    intro s j hj hne
    rw [List.foldl_cons, ih _ j hj (fun u hu => hne u (List.mem_cons_of_mem a hu)),
      outerStep_alpha_untouched o g rnd sinf piQ isVert ulen vlen sat s a j hj
        (hne a (List.mem_cons_self a t))]

theorem outer_foldl_alpha_written (o : RenderOpts) (g : Grid) (rnd : Nat → ℚ)
    (sinf : ℚ → ℚ) (piQ : ℚ) (isVert : Bool) (ulen vlen : Nat) (sat : ℚ) :
    ∀ (l : List Nat) (s : (Nat → ℚ) × ℚ × Nat) (u v : Nat), u ∈ l → v < vlen →
      l.Nodup →
      (∀ a b c d : Nat, a ∈ l → c ∈ l → b < vlen → d < vlen →
        pixIndex isVert ulen vlen a b = pixIndex isVert ulen vlen c d → a = c ∧ b = d) →
      ((l.foldl (outerStep o g rnd sinf piQ isVert ulen vlen sat) s).1)
          (pixIndex isVert ulen vlen u v + 3)
        = (if pixVal isVert g u v = 0 then 0 else 255) := by
  intro l
  induction l with
  | nil => intro s u v hu; cases hu
  | cons a t ih =>
    intro s u v hu hv hnd hinj
    have hat : a ∉ t := (List.nodup_cons.mp hnd).1
    rw [List.foldl_cons]
    by_cases hua : u = a
    · subst hua
      rw [outer_foldl_alpha_untouched o g rnd sinf piQ isVert ulen vlen sat t _
        (pixIndex isVert ulen vlen u v + 3)
        (by have := pixIndex_mod4 isVert ulen vlen u v; omega) ?hne]
      case hne =>
        intro u2 hu2 v2 hv2 hcontra
        have heq : pixIndex isVert ulen vlen u v = pixIndex isVert ulen vlen u2 v2 := by
          omega
        have := hinj u v u2 v2 (List.mem_cons_self u t)
          (List.mem_cons_of_mem u hu2) hv (List.mem_range.mp hv2) heq
        rw [← this.1] at hu2
        exact hat hu2
      exact inner_foldl_alpha_written o g rnd sinf piQ isVert ulen vlen u _ sat
        (List.range vlen) _ v (List.mem_range.mpr hv) (List.nodup_range vlen)
        (fun a2 ha2 b2 hb2 heq2 =>
          (hinj u a2 u b2 (List.mem_cons_self u t) (List.mem_cons_self u t)
            (List.mem_range.mp ha2) (List.mem_range.mp hb2) heq2).2)
    · have hut : u ∈ t := by
        rcases List.mem_cons.mp hu with hk | hk
        · exact absurd hk hua
        · exact hk
      exact ih _ u v hut hv (List.nodup_cons.mp hnd).2
        (fun a2 b2 c2 d2 ha2 hc2 hb2 hd2 =>
          hinj a2 b2 c2 d2 (List.mem_cons_of_mem a ha2)
            (List.mem_cons_of_mem a hc2) hb2 hd2)

theorem rowMajorInj (w a a2 b b2 : Nat) (ha : a < w) (ha2 : a2 < w)
    (heq : b * w + a = b2 * w + a2) : b = b2 ∧ a = a2 := by
  have hmod : a = a2 := by
    have h1 : (b * w + a) % w = a := by
      rw [Nat.mul_comm b w, Nat.mul_add_mod]
      exact Nat.mod_eq_of_lt ha
    have h2 : (b2 * w + a2) % w = a2 := by
      rw [Nat.mul_comm b2 w, Nat.mul_add_mod]
      exact Nat.mod_eq_of_lt ha2
    rw [← h1, ← h2, heq]
  refine ⟨?_, hmod⟩
  have hw : 0 < w := Nat.lt_of_le_of_lt (Nat.zero_le a) ha
  have hmul : b * w = b2 * w := by omega
  exact Nat.eq_of_mul_eq_mul_right hw hmul

/-- The alpha byte of every in-bounds pixel of the rendered buffer:
exactly `0` when the corresponding resolved cell is `0` (empty), exactly
`255` otherwise — for every option record, stream, and sine model. -/
theorem renderPixelData_alpha (w h : Nat) (g : Grid) (o : RenderOpts)
    (rnd : Nat → ℚ) (sinf : ℚ → ℚ) (piQ : ℚ) (x y : Nat)
    (hx : x < w) (hy : y < h) :
    renderPixelData w h g o rnd sinf piQ ((y * w + x) * 4 + 3)
      = (if g x y = 0 then 0 else 255) := by
  unfold renderPixelData
  by_cases hV : rnd 0 > 1/2
  · simp only [if_pos hV, decide_eq_true hV]
    have hp : ((y * w + x) * 4 + 3) = pixIndex true h w y x + 3 := rfl
    rw [hp]
    have := outer_foldl_alpha_written o g rnd sinf piQ true h w
      (renderSaturation (rnd 1) o.saturation) (List.range h)
      (fun _ => 0, rnd 2, 3) y x (List.mem_range.mpr hy) hx (List.nodup_range h) ?hinj
    case hinj =>
      intro a b c d _ _ hb hd heq
      unfold pixIndex at heq
      rw [if_pos rfl, if_pos rfl] at heq
      have heq2 : a * w + b = c * w + d := by omega
      have := rowMajorInj w b d a c hb hd heq2
      exact ⟨this.1, this.2⟩
    rw [this]
    rfl
  · simp only [if_neg hV, decide_eq_false hV]
    have hp : ((y * w + x) * 4 + 3) = pixIndex false w h x y + 3 := rfl
    rw [hp]
    have := outer_foldl_alpha_written o g rnd sinf piQ false w h
      (renderSaturation (rnd 1) o.saturation) (List.range w)
      (fun _ => 0, rnd 2, 3) x y (List.mem_range.mpr hx) hy (List.nodup_range w) ?hinj
    case hinj =>
      intro a b c d ha hc hb hd heq
      unfold pixIndex at heq
      rw [if_neg (by decide), if_neg (by decide)] at heq
      have heq2 : b * w + a = d * w + c := by omega
      have hr := rowMajorInj w a c b d (List.mem_range.mp ha) (List.mem_range.mp hc) heq2
      exact ⟨hr.2, hr.1⟩
    rw [this]
    rfl

/-! ## Claims -/

/-- **C1** (counterexample).  The claim states that constructing a Mask
whose cells sequence has length different from `width*height` fails with
`InvalidMaskError` and yields no usable object.  In the code the `Mask`
constructor performs no validation at all: at the invalid input
`cells = []`, `width = 2`, `height = 1` construction succeeds and yields
a fully usable object storing the arguments verbatim, even though
`cells.length = 0 ≠ 2 = width*height`.  No `InvalidMaskError` exists
anywhere in either revision. -/
theorem C1_counterexample :
    (Mask.make [] 2 1 none none).width = 2 ∧
    (Mask.make [] 2 1 none none).height = 1 ∧
    (Mask.make [] 2 1 none none).data = [] ∧
    (Mask.make [] 2 1 none none).mirrorX = true ∧
    (Mask.make [] 2 1 none none).mirrorY = true ∧
    (Mask.make [] 2 1 none none).data.length ≠
      (Mask.make [] 2 1 none none).width * (Mask.make [] 2 1 none none).height := by
  exact ⟨rfl, rfl, rfl, rfl, rfl, by decide⟩

/-- **C1** (amended).  Mask construction performs no validation: for every
cells list, dimensions and mirror flags (defined or undefined), the
constructor succeeds and returns a Mask storing the arguments verbatim,
with the mirror flags defaulting to `true` when undefined.  There is no
failure path: neither the cell count nor the cell values are checked. -/
theorem C1_mask_make_no_validation (data : List Int) (width height : Nat)
    (mx my : Option Bool) :
    (Mask.make data width height mx my).width = width ∧
    (Mask.make data width height mx my).height = height ∧
    (Mask.make data width height mx my).data = data ∧
    (Mask.make data width height mx my).mirrorX = mx.getD true ∧
    (Mask.make data width height mx my).mirrorY = my.getD true :=
  ⟨rfl, rfl, rfl, rfl, rfl⟩

/-- **C2** (code bug in v0.0.1).  For the mask `width = 1`, `height = 1`,
`cells = [0]`, `mirrorX = false`, `mirrorY = true` (grid 1×2) and any
stream (here the constant-0 stream; the mask has no stochastic codes),
the v0.0.1 pipeline — whose `init` erroneously re-invokes `mirrorX()`
where `mirrorY()` was intended (line 82) — produces `cell(0,0) = 0` but
`cell(0,1) = -1`, violating `cell(x,y) = cell(x, height-1-y)`; the fixed
v0.0.2 pipeline at the same input produces the vertically symmetric
`cell(0,0) = cell(0,1) = 0` (see also `finishedGrid_symmY` for the
general v0.0.2 symmetry theorem). -/
theorem C2_v001_mirrorY_failure :
    Sprite.finishedGridV001 ⟨1, 1, [0], false, true⟩ (fun _ => 0) 0 0 = 0 ∧
    Sprite.finishedGridV001 ⟨1, 1, [0], false, true⟩ (fun _ => 0) 0 1 = -1 ∧
    Sprite.gridHeight ⟨1, 1, [0], false, true⟩ = 2 ∧
    Sprite.finishedGrid ⟨1, 1, [0], false, true⟩ (fun _ => 0) 0 0 = 0 ∧
    Sprite.finishedGrid ⟨1, 1, [0], false, true⟩ (fun _ => 0) 0 1 = 0 := by
  exact ⟨by decide, by decide, rfl, by decide, by decide⟩

/-- **C3**.  For every Mask with `mirrorX = true`, every random stream and
all valid coordinates, the finished v0.0.2 grid satisfies
`cell(x, y) = cell(width-1-x, y)`. -/
theorem C3_finishedGrid_symmX (m : Mask) (rnd : Nat → ℚ)
    (hmx : m.mirrorX = true) (x y : Nat)
    (hx : x < Sprite.gridWidth m) (hy : y < Sprite.gridHeight m) :
    Sprite.finishedGrid m rnd x y
      = Sprite.finishedGrid m rnd (Sprite.gridWidth m - 1 - x) y := by
  unfold Sprite.finishedGrid
  exact generateEdges_symmX (Sprite.gridWidth m) (Sprite.gridHeight m)
    (Sprite.mirroredGrid m rnd) (mirroredGrid_symmX m rnd hmx) x y hx hy

/-- **C3** witness: the theorem applied to the concrete mask
`cells = [1]`, 1×1, default mirror flags, constant-0 stream, at (0, 0). -/
theorem C3_witness :
    (Mask.make [1] 1 1 none none).mirrorX = true ∧
    0 < Sprite.gridWidth (Mask.make [1] 1 1 none none) ∧
    0 < Sprite.gridHeight (Mask.make [1] 1 1 none none) ∧
    Sprite.finishedGrid (Mask.make [1] 1 1 none none) (fun _ => 0) 0 0
      = Sprite.finishedGrid (Mask.make [1] 1 1 none none) (fun _ => 0)
          (Sprite.gridWidth (Mask.make [1] 1 1 none none) - 1 - 0) 0 :=
  ⟨rfl, by decide, by decide,
    C3_finishedGrid_symmX (Mask.make [1] 1 1 none none) (fun _ => 0) rfl 0 0
      (by decide) (by decide)⟩

/-- **C4**.  After `generateEdges`, no body cell (value 1) has an
in-bounds orthogonal neighbour with value 0, and `generateEdges` is
idempotent: a second run returns the grid unchanged. -/
theorem C4_edges_exhaustive_idempotent :
    (∀ (w h : Nat) (g : Grid) (x y : Nat), x < w → y < h →
      Sprite.generateEdges w h g x y = 1 →
        (1 ≤ y → Sprite.generateEdges w h g x (y - 1) ≠ 0) ∧
        (y + 1 < h → Sprite.generateEdges w h g x (y + 1) ≠ 0) ∧
        (1 ≤ x → Sprite.generateEdges w h g (x - 1) y ≠ 0) ∧
        (x + 1 < w → Sprite.generateEdges w h g (x + 1) y ≠ 0)) ∧
    (∀ (w h : Nat) (g : Grid),
      Sprite.generateEdges w h (Sprite.generateEdges w h g)
        = Sprite.generateEdges w h g) := by
  constructor
  · intro w h g x y hx hy hbody
    have hg1 : g x y = 1 := by
      rw [generateEdges_apply] at hbody
      by_cases hc : x < w ∧ y < h ∧ g x y = 0 ∧ bodyNbr w h g x y = true
      · rw [if_pos hc] at hbody
        exact absurd hbody (by decide)
      · rw [if_neg hc] at hbody
        exact hbody
    refine ⟨?_, ?_, ?_, ?_⟩
    · intro hgy h0
      rw [generateEdges_apply] at h0
      by_cases hc : x < w ∧ y - 1 < h ∧ g x (y - 1) = 0 ∧ bodyNbr w h g x (y - 1) = true
      · rw [if_pos hc] at h0
        exact absurd h0 (by decide)
      · rw [if_neg hc] at h0
        refine hc ⟨hx, by omega, h0, ?_⟩
        simp only [bodyNbr, Bool.or_eq_true, Bool.and_eq_true, decide_eq_true_eq]
        refine Or.inl (Or.inl (Or.inr ⟨by omega, ?_⟩))
        have he : y - 1 + 1 = y := by omega
        rw [he, hg1]
        decide
    · intro hgy h0
      rw [generateEdges_apply] at h0
      by_cases hc : x < w ∧ y + 1 < h ∧ g x (y + 1) = 0 ∧ bodyNbr w h g x (y + 1) = true
      · rw [if_pos hc] at h0
        exact absurd h0 (by decide)
      · rw [if_neg hc] at h0
        refine hc ⟨hx, hgy, h0, ?_⟩
        simp only [bodyNbr, Bool.or_eq_true, Bool.and_eq_true, decide_eq_true_eq]
        refine Or.inl (Or.inl (Or.inl ⟨by omega, ?_⟩))
        have he : y + 1 - 1 = y := by omega
        rw [he, hg1]
        decide
    · intro hgx h0
      rw [generateEdges_apply] at h0
      by_cases hc : x - 1 < w ∧ y < h ∧ g (x - 1) y = 0 ∧ bodyNbr w h g (x - 1) y = true
      · rw [if_pos hc] at h0
        exact absurd h0 (by decide)
      · rw [if_neg hc] at h0
        refine hc ⟨by omega, hy, h0, ?_⟩
        simp only [bodyNbr, Bool.or_eq_true, Bool.and_eq_true, decide_eq_true_eq]
        refine Or.inr ⟨by omega, ?_⟩
        have he : x - 1 + 1 = x := by omega
        rw [he, hg1]
        decide
    · intro hgx h0
      rw [generateEdges_apply] at h0
      by_cases hc : x + 1 < w ∧ y < h ∧ g (x + 1) y = 0 ∧ bodyNbr w h g (x + 1) y = true
      · rw [if_pos hc] at h0
        exact absurd h0 (by decide)
      · rw [if_neg hc] at h0
        refine hc ⟨hgx, hy, h0, ?_⟩
        simp only [bodyNbr, Bool.or_eq_true, Bool.and_eq_true, decide_eq_true_eq]
        refine Or.inl (Or.inr ⟨by omega, ?_⟩)
        have he : x + 1 - 1 = x := by omega
        rw [he, hg1]
        decide
  · exact generateEdges_idem

/-- **C4** witness: on the 2×2 grid with a single body cell at (0, 0),
edge synthesis leaves the body at value 1 and its down-neighbour is no
longer empty. -/
theorem C4_witness :
    (0 < 2 ∧
      Sprite.generateEdges 2 2 (fun a b => if a = 0 ∧ b = 0 then 1 else 0) 0 0 = 1) ∧
    (0 + 1 < 2 →
      Sprite.generateEdges 2 2 (fun a b => if a = 0 ∧ b = 0 then 1 else 0) 0 (0 + 1) ≠ 0) :=
  ⟨⟨by decide, by decide⟩,
    (C4_edges_exhaustive_idempotent.1 2 2
      (fun a b => if a = 0 ∧ b = 0 then 1 else 0) 0 0
      (by decide) (by decide) (by decide)).2.1⟩

/-- **C6**.  For every Mask whose cells are all -1 or 0 (no stochastic
codes), two generation runs with any two random streams produce identical
finished grids: the sampling loop passes every cell through unchanged and
consumes nothing, and all other phases are deterministic. -/
theorem C6_no_stochastic_codes_deterministic (m : Mask) (r1 r2 : Nat → ℚ)
    (hm : ∀ v ∈ m.data, v = -1 ∨ v = 0) :
    Sprite.finishedGrid m r1 = Sprite.finishedGrid m r2 := by
  unfold Sprite.finishedGrid Sprite.mirroredGrid
  rw [sampledGrid_eq_of_no_stoch m r1 hm, sampledGrid_eq_of_no_stoch m r2 hm]

/-- **C6** witness: the mask `[-1, 0]` (2×1) under two different streams. -/
theorem C6_witness :
    (∀ v ∈ ([-1, 0] : List Int), v = -1 ∨ v = 0) ∧
    Sprite.finishedGrid (Mask.make [-1, 0] 2 1 none none) (fun _ => 0)
      = Sprite.finishedGrid (Mask.make [-1, 0] 2 1 none none) (fun k => (k : ℚ)) :=
  ⟨by decide,
    C6_no_stochastic_codes_deterministic (Mask.make [-1, 0] 2 1 none none)
      (fun _ => 0) (fun k => (k : ℚ)) (by decide)⟩

/-- **C7**.  The stochastic sampling phase maps each cell independently:
(1) the resolved value of every in-bounds cell is `sampleCellVal` of its
own pre-sampling value and of the single draw indexed by the number of
draw-consuming cells before it in scan order; (2) cells holding -1 or 0
pass through unchanged; (3) for mask-domain values and a draw in `[0,1)`
the result is always in {-1, 0, 1}; (4) a code-1 cell becomes body
exactly on the draw set `[1/2, 1)` and empty exactly on `[0, 1/2)` —
each half of the uniform range, i.e. probability 0.5; (5) a code-2 cell
becomes body exactly on `(1/2, 1)` and border exactly on `[0, 1/2]`,
again probability 0.5 each under a uniform draw; (6) distinct
draw-consuming cells consume distinct draws. -/
theorem C7_sampling_per_cell :
    (∀ (w h : Nat) (rnd : Nat → ℚ) (g : Grid) (x y : Nat), x < w → y < h →
      Sprite.generateRandomSample w h rnd g x y
        = Sprite.sampleCellVal (g x y) (rnd (stochBefore g (coordList w h) (x, y)))) ∧
    (∀ (v : Int) (r : ℚ), v = -1 ∨ v = 0 → Sprite.sampleCellVal v r = v) ∧
    (∀ (v : Int) (r : ℚ), (v = -1 ∨ v = 0 ∨ v = 1 ∨ v = 2) → 0 ≤ r → r < 1 →
      (Sprite.sampleCellVal v r = -1 ∨ Sprite.sampleCellVal v r = 0 ∨
        Sprite.sampleCellVal v r = 1)) ∧
    ({r : ℚ | r ∈ Set.Ico (0 : ℚ) 1 ∧ Sprite.sampleCellVal 1 r = 1}
        = Set.Ico (1/2 : ℚ) 1 ∧
      {r : ℚ | r ∈ Set.Ico (0 : ℚ) 1 ∧ Sprite.sampleCellVal 1 r = 0}
        = Set.Ico (0 : ℚ) (1/2)) ∧
    ({r : ℚ | r ∈ Set.Ico (0 : ℚ) 1 ∧ Sprite.sampleCellVal 2 r = 1}
        = Set.Ioo (1/2 : ℚ) 1 ∧
      {r : ℚ | r ∈ Set.Ico (0 : ℚ) 1 ∧ Sprite.sampleCellVal 2 r = -1}
        = Set.Icc (0 : ℚ) (1/2)) ∧
    (∀ (g : Grid) (w h : Nat) (p q : Nat × Nat), p ≠ q →
      p ∈ coordList w h → q ∈ coordList w h →
      isStoch g p = true → isStoch g q = true →
      stochBefore g (coordList w h) p ≠ stochBefore g (coordList w h) q) := by
  refine ⟨?_, sampleCellVal_passthrough, sampleCellVal_mem,
    sampleCellVal_one_sets, sampleCellVal_two_sets, ?_⟩
  · intro w h rnd g x y hx hy
    rw [generateRandomSample_apply, if_pos ⟨hx, hy⟩]
  · intro g w h p q hpq hp hq hsp hsq
    exact stochBefore_injOn g (coordList w h) p q hpq hp hq hsp hsq

unseal Rat.add Rat.inv Rat.mul Rat.sub in
/-- **C7** witness: the per-cell formula applied on a 1×1 grid holding
code 2 with the constant-0 stream. -/
theorem C7_witness :
    0 < 1 ∧
    Sprite.generateRandomSample 1 1 (fun _ => (0 : ℚ)) (fun _ _ => 2) 0 0
      = Sprite.sampleCellVal ((fun _ _ => (2 : Int)) 0 0)
          ((fun _ => (0 : ℚ)) (stochBefore (fun _ _ => 2) (coordList 1 1) (0, 0))) :=
  ⟨by decide,
    C7_sampling_per_cell.1 1 1 (fun _ => 0) (fun _ _ => 2) 0 0 (by decide) (by decide)⟩

/-- **C5**.  In the rendered buffer the alpha byte of an in-bounds pixel
is exactly 0 iff the resolved cell there is 0 (empty); for every cell
valued -1 or 1 the written alpha byte is 255 — regardless of the colored
option (and of every other option, the random stream, and the
sine/π model). -/
theorem C5_alpha_iff_empty (w h : Nat) (g : Grid) (o : RenderOpts)
    (rnd : Nat → ℚ) (sinf : ℚ → ℚ) (piQ : ℚ) (x y : Nat)
    (hx : x < w) (hy : y < h) :
    (renderPixelData w h g o rnd sinf piQ ((y * w + x) * 4 + 3) = 0 ↔ g x y = 0) ∧
    (g x y = -1 ∨ g x y = 1 →
      renderPixelData w h g o rnd sinf piQ ((y * w + x) * 4 + 3) = 255) := by
  have h0 := renderPixelData_alpha w h g o rnd sinf piQ x y hx hy
  constructor
  · rw [h0]
    by_cases hc : g x y = 0
    · rw [if_pos hc]
      exact ⟨fun _ => hc, fun _ => rfl⟩
    · rw [if_neg hc]
      constructor
      · intro hk
        exact absurd hk (by norm_num)
      · intro hk
        exact absurd hk hc
  · intro hv
    rw [h0, if_neg ?_]
    rcases hv with hv | hv <;> intro hc <;> rw [hv] at hc <;> exact absurd hc (by decide)

unseal Rat.add Rat.inv Rat.mul Rat.sub in
/-- **C5** witness: a 1×1 empty grid rendered with the default options
and the constant-0 stream has alpha byte 0 at its only pixel. -/
theorem C5_witness :
    (0 < 1 ∧ 0 < 1) ∧
    (renderPixelData 1 1 (fun _ _ => 0) ⟨true, 3/10, 2/10, 3/10, 5/10⟩
        (fun _ => 0) (fun _ => 0) 3 ((0 * 1 + 0) * 4 + 3) = 0 ↔
      (fun _ _ => (0 : Int)) 0 0 = 0) :=
  ⟨⟨by decide, by decide⟩,
    (C5_alpha_iff_empty 1 1 (fun _ _ => 0) ⟨true, 3/10, 2/10, 3/10, 5/10⟩
      (fun _ => 0) (fun _ => 0) 3 0 0 (by decide) (by decide)).1⟩

unseal Rat.add Rat.inv Rat.mul Rat.sub in
/-- **C8** counterexample, a real execution distinguishing the raw and
clamped `edgeBrightness`.  Render the 1×1 all-border grid in colored mode
with `brightnessNoise = 1` — so brightness is exactly the raw per-pixel
draw and the sine term is multiplied by `1 - brightnessNoise = 0`; the
instantiation `sinf = fun _ => 0` moreover agrees with `Math.sin` at the
only argument used, `sin((0/1)·π) = 0` — with the saturation option 0
(so every HSL channel equals the brightness) and the constant stream
2/5.  With `edgeBrightness = 2` the red byte stored at index 0 is
`(2/5)·2·255 = 204`; with the clamped value 1 it is `(2/5)·255 = 102`.
Both are integers in [0, 255], fixed points of the `Uint8ClampedArray`
quantization the `ImageData` store performs, so the program itself
exhibits the divergence: the out-of-range value is used as supplied, not
clamped to [0,1] before use, and generation does not behave as if it had
been clamped. -/
theorem C8_counterexample :
    renderPixelData 1 1 (fun _ _ => -1) ⟨true, 2, 0, 1, 0⟩
      (fun _ => 2/5) (fun _ => 0) 3 0 = 204 ∧
    renderPixelData 1 1 (fun _ _ => -1) ⟨true, 1, 0, 1, 0⟩
      (fun _ => 2/5) (fun _ => 0) 3 0 = 102 ∧
    (204 : ℚ) ≠ 102 := by
  exact ⟨by decide, by decide, by decide⟩

/-- **C8** amended.  Out-of-range numeric option fields are accepted
without error (construction and rendering are total) but are used exactly
as supplied, without clamping; the only [0,1] clamp in the renderer is on
the derived per-render saturation `random() * saturation`.  Formally:
(1) the constructor's option merge stores every supplied numeric value
verbatim; (2) the derived per-render saturation always lands in [0,1];
(3) in colored mode the value the renderer computes and stores for a
border cell's red channel — the right-hand side of the `pixels.data`
assignment, before the `Uint8ClampedArray` quantization of the store
itself — is the HSL-derived channel multiplied by the raw
`edgeBrightness`. -/
theorem C8_options_used_unclamped :
    (∀ (o : SpriteOptions) (v : ℚ), o.edgeBrightness = some v →
      (mergeOptions o).edgeBrightness = some v) ∧
    (∀ r s : ℚ, 0 ≤ renderSaturation r s ∧ renderSaturation r s ≤ 1) ∧
    (∀ (o : RenderOpts) (g : Grid) (rnd : Nat → ℚ) (sinf : ℚ → ℚ) (piQ : ℚ)
        (isVert : Bool) (ulen vlen u : Nat) (hue sat : ℚ)
        (s : (Nat → ℚ) × Nat) (v : Nat),
      o.colored = true → pixVal isVert g u v = -1 →
      (innerStep o g rnd sinf piQ isVert ulen vlen u hue sat s v).1
          (pixIndex isVert ulen vlen u v)
        = (hslToRgb hue sat
            (brightnessVal sinf piQ u ulen o.brightnessNoise (rnd s.2)) ⟨1, 1, 1⟩).r
          * o.edgeBrightness * 255) := by
  refine ⟨?_, ?_, ?_⟩
  · intro o v hv
    unfold mergeOptions
    rw [hv]
    rfl
  · intro r s
    unfold renderSaturation
    constructor
    · exact le_max_right _ _
    · rw [max_le_iff]
      exact ⟨min_le_right _ _, by norm_num⟩
  · intro o g rnd sinf piQ isVert ulen vlen u hue sat s v hc hval
    unfold innerStep
    rw [if_pos (by rw [hval]; decide), if_pos hc]
    show writeRGBA s.1 (pixIndex isVert ulen vlen u v) _ _ _ 1
      (pixIndex isVert ulen vlen u v) = _
    unfold writeRGBA
    rw [if_pos rfl, if_pos hval]

/-- **C8** witness for the amended theorem: an options record supplying
the out-of-range `edgeBrightness = 5` keeps that value verbatim after the
constructor's merge. -/
theorem C8_amended_witness :
    (SpriteOptions.mk none (some 5) none none none).edgeBrightness = some 5 ∧
    (mergeOptions (SpriteOptions.mk none (some 5) none none none)).edgeBrightness
      = some 5 :=
  ⟨rfl, C8_options_used_unclamped.1 (SpriteOptions.mk none (some 5) none none none) 5 rfl⟩

/-- **C9**.  For every hue `h ≥ 0` (hue is drawn from [0,1)), every
saturation, lightness and incoming result record, `hslToRgb` computes
`f = fract(h*6)`, `p = l(1-s)`, `q = l(1-fs)`, `t = l(1-(1-f)s)` and
assigns `(r,g,b)` by sextant `⌊h*6⌋ mod 6` exactly per the claimed table
(0 ↦ (l,t,p), 1 ↦ (q,l,p), 2 ↦ (p,l,t), 3 ↦ (p,q,l), 4 ↦ (t,p,l),
5 ↦ (l,p,q)); `hslSextantSpec` is that table verbatim. -/
theorem C9_hslToRgb_sextants (h s l : ℚ) (result : RGB) (hh : 0 ≤ h) :
    hslToRgb h s l result = hslSextantSpec h s l := by
  unfold hslToRgb hslSextantSpec
  have h6 : (0 : ℚ) ≤ h * 6 := by positivity
  have hi : (0 : Int) ≤ ⌊h * 6⌋ := Int.floor_nonneg.mpr h6
  have htm : Int.tmod ⌊h * 6⌋ 6 = Int.emod ⌊h * 6⌋ 6 := Int.tmod_eq_emod hi (by decide)
  have hb1 : 0 ≤ Int.emod ⌊h * 6⌋ 6 := Int.emod_nonneg _ (by decide)
  have hb2 : Int.emod ⌊h * 6⌋ 6 < 6 := Int.emod_lt_of_pos _ (by decide)
  simp only [htm]
  have hj : Int.emod ⌊h * 6⌋ 6 = 0 ∨ Int.emod ⌊h * 6⌋ 6 = 1 ∨ Int.emod ⌊h * 6⌋ 6 = 2 ∨
      Int.emod ⌊h * 6⌋ 6 = 3 ∨ Int.emod ⌊h * 6⌋ 6 = 4 ∨ Int.emod ⌊h * 6⌋ 6 = 5 := by omega
  rcases hj with hj | hj | hj | hj | hj | hj <;> simp only [hj] <;> simp

/-- **C9** witness: the theorem at the concrete input
`h = 1/3, s = 1/2, l = 1/4` with an arbitrary incoming record. -/
theorem C9_witness :
    (0 : ℚ) ≤ 1/3 ∧
    hslToRgb (1/3) (1/2) (1/4) (RGB.mk 1 1 1) = hslSextantSpec (1/3) (1/2) (1/4) :=
  ⟨by norm_num, C9_hslToRgb_sextants (1/3) (1/2) (1/4) (RGB.mk 1 1 1) (by norm_num)⟩

/-- **C10**.  The v0.0.2 `Sprite` constructor mutates the caller-supplied
options object in place: `this.options = options` aliases the caller's
record and the merge loop assigns every one of the five documented
fields into it.  `mergeOptions o` is the post-constructor state of the
caller's record: every field the caller left undefined now holds the
default, every defined field is preserved — and re-using the mutated
record in a later construction is stable (the merge is idempotent), so
the caller's record carries the filled-in defaults across generations. -/
theorem C10_constructor_mutates_options (o : SpriteOptions) :
    (mergeOptions o).colored = some (o.colored.getD true) ∧
    (mergeOptions o).edgeBrightness = some (o.edgeBrightness.getD (3/10)) ∧
    (mergeOptions o).colorVariations = some (o.colorVariations.getD (2/10)) ∧
    (mergeOptions o).brightnessNoise = some (o.brightnessNoise.getD (3/10)) ∧
    (mergeOptions o).saturation = some (o.saturation.getD (5/10)) ∧
    mergeOptions (mergeOptions o) = mergeOptions o := by
  refine ⟨rfl, rfl, rfl, rfl, rfl, ?_⟩
  unfold mergeOptions
  simp

end PSG
